import Mathlib

/-!
# Group membership reconciliation of the Looker provider

A shallow embedding of `pkg/looker/resource_group_membership.go`.

* The remote client (`*apiclient.LookerSDK`) is a record of seven response
  functions over an arbitrary client state `σ`; each response may succeed or
  fail and may change the state, so every pattern of failures is covered by
  quantifying over the record.
* Every Go function that talks to the client is a function
  `σ → Out σ α`: it returns its result, the client state it leaves behind and
  the list of remote calls it issued, in order, each with the reply it got.
* A Go `error` is its message; dereferencing a nil `*string` is the separate
  outcome `Res.panic`.
-/

namespace Looker

variable {σ α β : Type}

namespace apiclient

/-- The part of the SDK record `User` that the code reads: `Id *string`. -/
structure User where
  Id : Option String
deriving DecidableEq, Repr

/-- The part of the SDK record `Group` that the code reads: `Id *string`. -/
structure Group where
  Id : Option String
deriving DecidableEq, Repr

end apiclient

/-! ## Calls, replies, outcomes -/

/-- The remote calls the file issues, with the arguments that vary. -/
inductive Call where
  | AllGroupUsers (groupId : String)
  | AllGroupGroups (groupId : String)
  | User (userId : String)
  | AddGroupUser (groupId userId : String)
  | AddGroupGroup (groupId memberGroupId : String)
  | DeleteGroupUser (groupId userId : String)
  | DeleteGroupFromGroup (groupId memberGroupId : String)
deriving DecidableEq, Repr

/-- What the client answered to a call. -/
inductive Reply where
  | failed (err : String)
  | done
  | user (u : apiclient.User)
  | users (l : List apiclient.User)
  | groups (l : List apiclient.Group)
deriving DecidableEq, Repr

/-- One issued remote call together with its reply. -/
structure Event where
  call : Call
  reply : Reply
deriving DecidableEq, Repr

/-- Outcome of a Go function: a value, a returned error, or a run-time panic. -/
inductive Res (α : Type) where
  | ok (a : α)
  | error (err : String)
  | panic
deriving DecidableEq, Repr

/-- Result, client state afterwards, and the calls issued (oldest first). -/
structure Out (σ α : Type) where
  res : Res α
  state : σ
  trace : List Event

/-- A Go function that may call the client. -/
def Op (σ α : Type) : Type := σ → Out σ α

/-- Returning a value issues no call. -/
def Op.pure {σ α : Type} (a : α) : Op σ α := fun s => ⟨Res.ok a, s, []⟩

/-- Sequencing with `if err != nil { return err }` after the first part. -/
def Op.bind {σ α β : Type} (x : Op σ α) (f : α → Op σ β) : Op σ β := fun s =>
  match x s with
  | ⟨Res.ok a, s1, t1⟩ =>
    match f a s1 with
    | ⟨r, s2, t2⟩ => ⟨r, s2, t1 ++ t2⟩
  | ⟨Res.error e, s1, t1⟩ => ⟨Res.error e, s1, t1⟩
  | ⟨Res.panic, s1, t1⟩ => ⟨Res.panic, s1, t1⟩

instance {σ : Type} : Monad (Op σ) where
  pure := Op.pure
  bind := Op.bind

/-- The client handle: how the remote service answers each call in a state. -/
structure LookerSDK (σ : Type) where
  AllGroupUsers : String → σ → Except String (List apiclient.User) × σ
  AllGroupGroups : String → σ → Except String (List apiclient.Group) × σ
  AddGroupUser : String → String → σ → Except String Unit × σ
  AddGroupGroup : String → String → σ → Except String Unit × σ
  DeleteGroupUser : String → String → σ → Except String Unit × σ
  DeleteGroupFromGroup : String → String → σ → Except String Unit × σ
  User : String → σ → Except String apiclient.User × σ

/-- Issue one remote call and record it with its reply. -/
def issue {σ α : Type} (c : Call) (respond : σ → Except String α × σ)
    (rep : α → Reply) : Op σ α := fun s =>
  match respond s with
  | (Except.ok a, s1) => ⟨Res.ok a, s1, [⟨c, rep a⟩]⟩
  | (Except.error e, s1) => ⟨Res.error e, s1, [⟨c, Reply.failed e⟩]⟩

namespace client

def AllGroupUsers (m : LookerSDK σ) (groupId : String) : Op σ (List apiclient.User) :=
  issue (Call.AllGroupUsers groupId) (m.AllGroupUsers groupId) Reply.users

def AllGroupGroups (m : LookerSDK σ) (groupId : String) : Op σ (List apiclient.Group) :=
  issue (Call.AllGroupGroups groupId) (m.AllGroupGroups groupId) Reply.groups

def User (m : LookerSDK σ) (userId : String) : Op σ apiclient.User :=
  issue (Call.User userId) (m.User userId) Reply.user

def AddGroupUser (m : LookerSDK σ) (groupId userId : String) : Op σ Unit :=
  issue (Call.AddGroupUser groupId userId) (m.AddGroupUser groupId userId) (fun _ => Reply.done)

def AddGroupGroup (m : LookerSDK σ) (groupId memberGroupId : String) : Op σ Unit :=
  issue (Call.AddGroupGroup groupId memberGroupId) (m.AddGroupGroup groupId memberGroupId)
    (fun _ => Reply.done)

def DeleteGroupUser (m : LookerSDK σ) (groupId userId : String) : Op σ Unit :=
  issue (Call.DeleteGroupUser groupId userId) (m.DeleteGroupUser groupId userId)
    (fun _ => Reply.done)

def DeleteGroupFromGroup (m : LookerSDK σ) (groupId memberGroupId : String) : Op σ Unit :=
  issue (Call.DeleteGroupFromGroup groupId memberGroupId)
    (m.DeleteGroupFromGroup groupId memberGroupId) (fun _ => Reply.done)

end client

/-- Dereference of a `*string`: nil panics. -/
def deref {σ : Type} : Option String → Op σ String
  | some v => Op.pure v
  | none => fun s => ⟨Res.panic, s, []⟩

/-- A pure Go computation that may panic, run inside an operation. -/
def orPanic {σ α : Type} : Option α → Op σ α
  | some v => Op.pure v
  | none => fun s => ⟨Res.panic, s, []⟩

/-- The `fmt.Errorf("error fetching user with id %s: %w", userID, err)` message. -/
def wrapFetchError (userID err : String) : String :=
  "error fetching user with id " ++ userID ++ ": " ++ err

/-- On failure replace the error by `wrap err`; calls and state are kept. -/
def Op.mapError {σ α : Type} (wrap : String → String) (x : Op σ α) : Op σ α := fun s =>
  match x s with
  | ⟨Res.error e, s1, t1⟩ => ⟨Res.error (wrap e), s1, t1⟩
  | o => o

/-! ## Resource data -/

/-- The resource data `d`: the stored id and the four schema fields.  A schema
set of strings is the list of its elements. -/
structure ResourceData where
  Id : String
  target_group_id : String
  user_ids : List String
  delete_protected_user_ids : List String
  group_ids : List String
deriving DecidableEq, Repr

/-- Modelled from the spec: `expandStringListFromSet` is not in the source file;
the spec has the three set fields as sets of strings that the operations
iterate over, so the helper yields the elements of the set as a slice. -/
def expandStringListFromSet (set : List String) : List String := set

/-- Modelled from the spec: `differentStringSlices` is not in the source file;
the spec has it as the negation of set equality, order-independent: it is
true exactly when some id is in one slice and not in the other. -/
def differentStringSlices (a b : List String) : Bool :=
  !(a.all (fun x => b.contains x) && b.all (fun x => a.contains x))

/-- Writing a string slice into a schema set field keeps one copy of each. -/
def schemaSetOf (l : List String) : List String := l.dedup

/-! ## The functions of the file -/

/-- Go `contains`. -/
def contains : List String → String → Bool
  | [], _ => false
  | v :: rest, value => if v = value then true else contains rest value

/-- Go `flattenUserIDs`; `none` is the nil-pointer panic of `*user.Id`. -/
def flattenUserIDs : List apiclient.User → Option (List String)
  | [] => some []
  | user :: rest =>
    match user.Id, flattenUserIDs rest with
    | some id, some ids => some (id :: ids)
    | _, _ => none

/-- Go `flattenGroupIDs`; `none` is the nil-pointer panic of `*group.Id`. -/
def flattenGroupIDs : List apiclient.Group → Option (List String)
  | [] => some []
  | group :: rest =>
    match group.Id, flattenGroupIDs rest with
    | some id, some ids => some (id :: ids)
    | _, _ => none

/-- Go `addGroupUsers`. -/
def addGroupUsers (m : LookerSDK σ) (targetGroupID : String) : List String → Op σ Unit
  | [] => Op.pure ()
  | userID :: rest => do
    client.AddGroupUser m targetGroupID userID
    addGroupUsers m targetGroupID rest

/-- Go `checkUsersExist`. -/
def checkUsersExist (m : LookerSDK σ) : List String → Op σ Unit
  | [] => Op.pure ()
  | userID :: rest => do
    let _ ← Op.mapError (wrapFetchError userID) (client.User m userID)
    checkUsersExist m rest

/-- Go `addGroupGroups`. -/
def addGroupGroups (m : LookerSDK σ) (targetGroupID : String) : List String → Op σ Unit
  | [] => Op.pure ()
  | groupID :: rest => do
    client.AddGroupGroup m targetGroupID groupID
    addGroupGroups m targetGroupID rest

/-- The `for _, user := range users` loop of `removeAllUsersFromGroup`.  A nil
slice is the empty list, so `protectedUserIDs == nil` is `isEmpty`; on an empty
slice that is not nil `contains` is false and the guard has the same value. -/
def removeAllUsersFromGroup.loop (m : LookerSDK σ) (groupID : String)
    (protectedUserIDs : List String) : List apiclient.User → Op σ Unit
  | [] => Op.pure ()
  | user :: rest => do
    let id ← deref user.Id
    if protectedUserIDs.isEmpty || !contains protectedUserIDs id then
      client.DeleteGroupUser m groupID id
    removeAllUsersFromGroup.loop m groupID protectedUserIDs rest

/-- Go `removeAllUsersFromGroup`. -/
def removeAllUsersFromGroup (m : LookerSDK σ) (groupID : String)
    (protectedUserIDs : List String) : Op σ Unit := do
  let users ← client.AllGroupUsers m groupID
  removeAllUsersFromGroup.loop m groupID protectedUserIDs users

/-- The `for _, group := range groups` loop of `removeAllGroupsFromGroup`. -/
def removeAllGroupsFromGroup.loop (m : LookerSDK σ) (groupID : String) :
    List apiclient.Group → Op σ Unit
  | [] => Op.pure ()
  | group :: rest => do
    let id ← deref group.Id
    client.DeleteGroupFromGroup m groupID id
    removeAllGroupsFromGroup.loop m groupID rest

/-- Go `removeAllGroupsFromGroup`. -/
def removeAllGroupsFromGroup (m : LookerSDK σ) (groupID : String) : Op σ Unit := do
  let groups ← client.AllGroupGroups m groupID
  removeAllGroupsFromGroup.loop m groupID groups

/-- Go `getGroupIDs`. -/
def getGroupIDs (m : LookerSDK σ) (groupId : String) : Op σ (List String) := do
  let groups ← client.AllGroupGroups m groupId
  orPanic (flattenGroupIDs groups)

/-- Go `validate`, the `CustomizeDiff` hook. -/
def validate (m : LookerSDK σ) (d : ResourceData) : Op σ Unit :=
  let userIDs := expandStringListFromSet d.user_ids
  checkUsersExist m userIDs

/-- Go `resourceGroupMembershipRead`: on success the resource data with the
three fields written.  The three `d.Set` calls write values of the types the
schema declares and are taken to succeed. -/
def resourceGroupMembershipRead (m : LookerSDK σ) (d : ResourceData) : Op σ ResourceData := do
  let targetGroupID := d.target_group_id
  let users ← client.AllGroupUsers m targetGroupID
  let groups ← client.AllGroupGroups m targetGroupID
  let d1 := { d with target_group_id := targetGroupID }
  let userIDs ← orPanic (flattenUserIDs users)
  let d2 := { d1 with user_ids := schemaSetOf userIDs }
  let groupIDs ← orPanic (flattenGroupIDs groups)
  let d3 := { d2 with group_ids := schemaSetOf groupIDs }
  return d3

/-- Go `resourceGroupMembershipCreate`. -/
def resourceGroupMembershipCreate (m : LookerSDK σ) (d : ResourceData) : Op σ ResourceData := do
  let targetGroupID := d.target_group_id
  let userIDs := expandStringListFromSet d.user_ids
  addGroupUsers m targetGroupID userIDs
  let groupIDs := expandStringListFromSet d.group_ids
  addGroupGroups m targetGroupID groupIDs
  let d1 := { d with Id := targetGroupID }
  resourceGroupMembershipRead m d1

/-- Go `resourceGroupMembershipUpdate`. -/
def resourceGroupMembershipUpdate (m : LookerSDK σ) (d : ResourceData) : Op σ ResourceData := do
  let targetGroupID := d.Id
  let userIDs := expandStringListFromSet d.user_ids
  checkUsersExist m userIDs
  let protectedUserIDs := expandStringListFromSet d.delete_protected_user_ids
  removeAllUsersFromGroup m targetGroupID protectedUserIDs
  let groupIDs := expandStringListFromSet d.group_ids
  let actualGroupIDs ← getGroupIDs m targetGroupID
  let updateGroupsFromGroupRequired := differentStringSlices actualGroupIDs groupIDs
  if updateGroupsFromGroupRequired then
    removeAllGroupsFromGroup m targetGroupID
  addGroupUsers m targetGroupID userIDs
  if updateGroupsFromGroupRequired then
    addGroupGroups m targetGroupID groupIDs
  resourceGroupMembershipRead m d

/-- Go `resourceGroupMembershipDelete`. -/
def resourceGroupMembershipDelete (m : LookerSDK σ) (d : ResourceData) : Op σ ResourceData := do
  let targetGroupID := d.Id
  let protectedUserIDs := expandStringListFromSet d.delete_protected_user_ids
  removeAllUsersFromGroup m targetGroupID protectedUserIDs
  removeAllGroupsFromGroup m targetGroupID
  resourceGroupMembershipRead m d

/-- The framework importer `schema.ImportStatePassthroughContext`: the resource
data it hands to Read has the id and no field set. -/
def importStatePassthrough (id : String) : ResourceData :=
  { Id := id, target_group_id := "", user_ids := [], delete_protected_user_ids := [],
    group_ids := [] }

/-! ## A remote service with set semantics -/

/-- State of a remote service with set semantics: the user ids that exist, and
for each group id the user ids and the group ids that are its members. -/
structure Remote where
  existing : List String
  users : String → List String
  groups : String → List String

/-- Set insertion on a member list. -/
def Remote.insert (l : List String) (x : String) : List String :=
  if x ∈ l then l else l ++ [x]

/-- Set removal on a member list. -/
def Remote.remove (l : List String) (x : String) : List String :=
  l.filter (fun y => decide (y ≠ x))

def Remote.addUser (s : Remote) (g u : String) : Remote :=
  { s with users := Function.update s.users g (Remote.insert (s.users g) u) }

def Remote.addGroup (s : Remote) (g x : String) : Remote :=
  { s with groups := Function.update s.groups g (Remote.insert (s.groups g) x) }

def Remote.deleteUser (s : Remote) (g u : String) : Remote :=
  { s with users := Function.update s.users g (Remote.remove (s.users g) u) }

def Remote.deleteGroup (s : Remote) (g x : String) : Remote :=
  { s with groups := Function.update s.groups g (Remote.remove (s.groups g) x) }

/-- The client of a service where every membership call succeeds: add inserts,
remove deletes, a listing returns the current members, and a user lookup
succeeds exactly for the existing user ids. -/
def setService : LookerSDK Remote where
  AllGroupUsers := fun g s => (Except.ok ((s.users g).map (fun u => ⟨some u⟩)), s)
  AllGroupGroups := fun g s => (Except.ok ((s.groups g).map (fun x => ⟨some x⟩)), s)
  AddGroupUser := fun g u s => (Except.ok (), s.addUser g u)
  AddGroupGroup := fun g x s => (Except.ok (), s.addGroup g x)
  DeleteGroupUser := fun g u s => (Except.ok (), s.deleteUser g u)
  DeleteGroupFromGroup := fun g x s => (Except.ok (), s.deleteGroup g x)
  User := fun u s =>
    (if u ∈ s.existing then Except.ok ⟨some u⟩ else Except.error "Not found", s)

/-! ## Observations on traces -/

/-- The call got a failure reply. -/
def Event.failed (ev : Event) : Bool :=
  match ev.reply with
  | Reply.failed _ => true
  | _ => false

/-- The call changes membership. -/
def Call.isMutation : Call → Bool
  | Call.AddGroupUser _ _ => true
  | Call.AddGroupGroup _ _ => true
  | Call.DeleteGroupUser _ _ => true
  | Call.DeleteGroupFromGroup _ _ => true
  | _ => false

/-- The call adds or removes a member group. -/
def Call.isGroupMutation : Call → Bool
  | Call.AddGroupGroup _ _ => true
  | Call.DeleteGroupFromGroup _ _ => true
  | _ => false

/-- The call adds or removes a member user. -/
def Call.isUserMutation : Call → Bool
  | Call.AddGroupUser _ _ => true
  | Call.DeleteGroupUser _ _ => true
  | _ => false

/-- The call is a user lookup. -/
def Call.isLookup : Call → Bool
  | Call.User _ => true
  | _ => false

/-- The call is a listing of member groups. -/
def Call.isGroupListing : Call → Bool
  | Call.AllGroupGroups _ => true
  | _ => false

/-- The error `e` returned by an operation is the one of the failed call `ev`:
verbatim, or wrapped with the user id when the call is a user lookup. -/
def Surfaces (ev : Event) (e : String) : Prop :=
  ev.reply = Reply.failed e ∨
    ∃ uid inner, ev = ⟨Call.User uid, Reply.failed inner⟩ ∧ e = wrapFetchError uid inner

/-- The state a client is left in by answering the given calls in order. -/
def replay {σ : Type} (m : LookerSDK σ) : List Call → σ → σ
  | [], s => s
  | Call.AllGroupUsers g :: rest, s => replay m rest (m.AllGroupUsers g s).2
  | Call.AllGroupGroups g :: rest, s => replay m rest (m.AllGroupGroups g s).2
  | Call.User u :: rest, s => replay m rest (m.User u s).2
  | Call.AddGroupUser g u :: rest, s => replay m rest (m.AddGroupUser g u s).2
  | Call.AddGroupGroup g x :: rest, s => replay m rest (m.AddGroupGroup g x s).2
  | Call.DeleteGroupUser g u :: rest, s => replay m rest (m.DeleteGroupUser g u s).2
  | Call.DeleteGroupFromGroup g x :: rest, s => replay m rest (m.DeleteGroupFromGroup g x s).2

/-- Every call issued by `x`, from any state, satisfies `p`. -/
def Issues (p : Event → Prop) (x : Op σ α) : Prop :=
  ∀ s, ∀ ev ∈ (x s).trace, p ev

/-! ## Calls of the three operations -/

/-- The calls Update may issue for resource data `d`. -/
def UpdateCall (d : ResourceData) (c : Call) : Prop :=
  (∃ u, u ∈ d.user_ids ∧ c = Call.User u) ∨
  c = Call.AllGroupUsers d.Id ∨
  (∃ u, u ∉ d.delete_protected_user_ids ∧ c = Call.DeleteGroupUser d.Id u) ∨
  c = Call.AllGroupGroups d.Id ∨
  (∃ x, c = Call.DeleteGroupFromGroup d.Id x) ∨
  (∃ u, u ∈ d.user_ids ∧ c = Call.AddGroupUser d.Id u) ∨
  (∃ x, x ∈ d.group_ids ∧ c = Call.AddGroupGroup d.Id x) ∨
  c = Call.AllGroupUsers d.target_group_id ∨
  c = Call.AllGroupGroups d.target_group_id

/-- The calls Delete may issue for resource data `d`. -/
def DeleteCall (d : ResourceData) (c : Call) : Prop :=
  c = Call.AllGroupUsers d.Id ∨
  (∃ u, u ∉ d.delete_protected_user_ids ∧ c = Call.DeleteGroupUser d.Id u) ∨
  c = Call.AllGroupGroups d.Id ∨
  (∃ x, c = Call.DeleteGroupFromGroup d.Id x) ∨
  c = Call.AllGroupUsers d.target_group_id ∨
  c = Call.AllGroupGroups d.target_group_id

/-- The calls Create may issue for resource data `d`. -/
def CreateCall (d : ResourceData) (c : Call) : Prop :=
  (∃ u, u ∈ d.user_ids ∧ c = Call.AddGroupUser d.target_group_id u) ∨
  (∃ x, x ∈ d.group_ids ∧ c = Call.AddGroupGroup d.target_group_id x) ∨
  c = Call.AllGroupUsers d.target_group_id ∨
  c = Call.AllGroupGroups d.target_group_id

/-! ## Abort at the first failing call -/

/-- The error policy, on one run from client state `s0`: an error is returned
exactly when an issued call failed; a failed call is the last call issued, all
calls before it succeeded and the returned error is its error; and the state
left behind is the one obtained by answering the issued calls in order. -/
def FirstFailurePolicy {σ α : Type} (m : LookerSDK σ) (s0 : σ) (o : Out σ α) : Prop :=
  ((∃ e, o.res = Res.error e) ↔ ∃ ev, ev ∈ o.trace ∧ ev.failed = true) ∧
  (∀ pre ev post, o.trace = pre ++ ev :: post → ev.failed = true →
    post = [] ∧ (∀ x, x ∈ pre → x.failed = false) ∧ ∃ e, o.res = Res.error e ∧ Surfaces ev e) ∧
  o.state = replay m (o.trace.map Event.call) s0

/-- A run whose calls all succeeded unless it returned an error, in which case
exactly the last call failed and its error is the one returned. -/
def FailFast {σ α : Type} (o : Out σ α) : Prop :=
  (∀ e, o.res = Res.error e → ∃ pre ev, o.trace = pre ++ [ev] ∧
    (∀ x, x ∈ pre → x.failed = false) ∧ ev.failed = true ∧ Surfaces ev e) ∧
  ((∀ e, o.res ≠ Res.error e) → ∀ x, x ∈ o.trace → x.failed = false)

/-- Every run of `x` is fail-fast. -/
def AbortsOnFailure {σ α : Type} (x : Op σ α) : Prop := ∀ s, FailFast (x s)

/-- Every run of `x` leaves the state obtained by replaying its calls. -/
def Replays {σ α : Type} (m : LookerSDK σ) (x : Op σ α) : Prop :=
  ∀ s, (x s).state = replay m ((x s).trace.map Event.call) s

/-- Fail-fast runs that leave the replayed state. -/
def Sound {σ α : Type} (m : LookerSDK σ) (x : Op σ α) : Prop :=
  AbortsOnFailure x ∧ Replays m x

/-! ## Runs on the set service -/

/-- The service state after adding the users `us` to group `g`, in order. -/
def Remote.addUsers (s : Remote) (g : String) (us : List String) : Remote :=
  us.foldl (fun t u => t.addUser g u) s

/-- The service state after adding the groups `xs` to group `g`, in order. -/
def Remote.addGroups (s : Remote) (g : String) (xs : List String) : Remote :=
  xs.foldl (fun t x => t.addGroup g x) s

/-- The service state after removing the users `us` from group `g`, in order. -/
def Remote.deleteUsers (s : Remote) (g : String) (us : List String) : Remote :=
  us.foldl (fun t u => t.deleteUser g u) s

/-- The service state after removing the groups `xs` from group `g`, in order. -/
def Remote.deleteGroups (s : Remote) (g : String) (xs : List String) : Remote :=
  xs.foldl (fun t x => t.deleteGroup g x) s

/-- The user records of a listing of the set service. -/
def userRecords (l : List String) : List apiclient.User := l.map (fun u => ⟨some u⟩)

/-- The group records of a listing of the set service. -/
def groupRecords (l : List String) : List apiclient.Group := l.map (fun x => ⟨some x⟩)

/-- What Read writes into the resource data on the set service in state `s`. -/
def readResult (d : ResourceData) (s : Remote) : ResourceData :=
  { d with user_ids := schemaSetOf (s.users d.target_group_id),
           group_ids := schemaSetOf (s.groups d.target_group_id) }

/-- The two listing calls of Read on the set service in state `s`. -/
def readTrace (d : ResourceData) (s : Remote) : List Event :=
  [⟨Call.AllGroupUsers d.target_group_id, Reply.users (userRecords (s.users d.target_group_id))⟩,
    ⟨Call.AllGroupGroups d.target_group_id,
      Reply.groups (groupRecords (s.groups d.target_group_id))⟩]

/-- The users of group `d.Id` that Update and Delete remove. -/
def unprotected (d : ResourceData) (s : Remote) : List String :=
  (s.users d.Id).filter (fun u => decide (u ∉ d.delete_protected_user_ids))

/-- The set service state after a successful Update. -/
def updateState (d : ResourceData) (s : Remote) : Remote :=
  if differentStringSlices (s.groups d.Id) d.group_ids = true then
    (((s.deleteUsers d.Id (unprotected d s)).deleteGroups d.Id (s.groups d.Id)).addUsers
      d.Id d.user_ids).addGroups d.Id d.group_ids
  else (s.deleteUsers d.Id (unprotected d s)).addUsers d.Id d.user_ids

/-- The calls of a successful Update on the set service. -/
def updateTrace (d : ResourceData) (s : Remote) : List Event :=
  d.user_ids.map (fun u => ⟨Call.User u, Reply.user ⟨some u⟩⟩) ++
  (⟨Call.AllGroupUsers d.Id, Reply.users (userRecords (s.users d.Id))⟩ ::
      (unprotected d s).map (fun u => ⟨Call.DeleteGroupUser d.Id u, Reply.done⟩)) ++
  [⟨Call.AllGroupGroups d.Id, Reply.groups (groupRecords (s.groups d.Id))⟩] ++
  (if differentStringSlices (s.groups d.Id) d.group_ids = true then
    ⟨Call.AllGroupGroups d.Id, Reply.groups (groupRecords (s.groups d.Id))⟩ ::
      (s.groups d.Id).map (fun x => ⟨Call.DeleteGroupFromGroup d.Id x, Reply.done⟩)
   else []) ++
  d.user_ids.map (fun u => ⟨Call.AddGroupUser d.Id u, Reply.done⟩) ++
  (if differentStringSlices (s.groups d.Id) d.group_ids = true then
    d.group_ids.map (fun x => ⟨Call.AddGroupGroup d.Id x, Reply.done⟩)
   else []) ++
  readTrace d (updateState d s)

/-- The set service state after Delete. -/
def deleteState (d : ResourceData) (s : Remote) : Remote :=
  (s.deleteUsers d.Id (unprotected d s)).deleteGroups d.Id (s.groups d.Id)

/-- The set service state after Create. -/
def createState (d : ResourceData) (s : Remote) : Remote :=
  (s.addUsers d.target_group_id d.user_ids).addGroups d.target_group_id d.group_ids

/-! ## Concrete inputs -/

/-- The scenario of the spec: group `g` holds `u1` and `u3`. -/
def scenarioRemote : Remote :=
  ⟨["u1", "u2", "u3"], fun g => if g = "g" then ["u1", "u3"] else [], fun _ => []⟩

/-- The scenario of the spec: desired `u1` and `u2`, protected `u3`. -/
def scenarioData : ResourceData := ⟨"g", "g", ["u1", "u2"], ["u3"], []⟩

/-- A service state where no user exists and no group has a member. -/
def emptyRemote : Remote := ⟨[], fun _ => [], fun _ => []⟩

/-- Desired state naming a user that does not exist. -/
def ghostData : ResourceData := ⟨"", "g", ["ghost"], [], []⟩

/-- A client on which every user lookup fails and every other call succeeds
with nothing listed. -/
def noUserService : LookerSDK Unit where
  AllGroupUsers := fun _ s => (Except.ok [], s)
  AllGroupGroups := fun _ s => (Except.ok [], s)
  AddGroupUser := fun _ _ s => (Except.ok (), s)
  AddGroupGroup := fun _ _ s => (Except.ok (), s)
  DeleteGroupUser := fun _ _ s => (Except.ok (), s)
  DeleteGroupFromGroup := fun _ _ s => (Except.ok (), s)
  User := fun _ s => (Except.error "Not found", s)

/-- Group `g` lists the member groups `x`, `y`. -/
def reorderedRemote : Remote :=
  ⟨["u1"], fun _ => [], fun g => if g = "g" then ["x", "y"] else []⟩

/-- Desired member groups `y`, `x`: the listed ones in another order. -/
def reorderedData : ResourceData := ⟨"g", "g", ["u1"], [], ["y", "x"]⟩

/-- Desired state for a group that has no member yet. -/
def freshData : ResourceData := ⟨"", "g", ["u1", "u2"], [], ["x"]⟩

/-- Group `g1` holds user `u1` and member group `x1`; group `g2` is empty. -/
def twoGroupRemote : Remote :=
  ⟨["u1", "u2"], fun g => if g = "g1" then ["u1"] else [],
    fun g => if g = "g1" then ["x1"] else []⟩

/-- Resource created for `g1` whose configured `target_group_id` is now `g2`. -/
def retargetedData : ResourceData := ⟨"g1", "g2", ["u2"], [], ["x1"]⟩

/-! # Theorems -/

theorem bind_def (x : Op σ α) (f : α → Op σ β) : (x >>= f) = Op.bind x f := rfl

theorem pure_def (a : α) : (pure a : Op σ α) = Op.pure a := rfl

theorem Op.pure_apply (a : α) (s : σ) : (Op.pure a : Op σ α) s = ⟨Res.ok a, s, []⟩ := rfl

theorem Op.bind_ok {x : Op σ α} {f : α → Op σ β} {s : σ} {a : α}
    (h : (x s).res = Res.ok a) :
    Op.bind x f s =
      ⟨(f a (x s).state).res, (f a (x s).state).state, (x s).trace ++ (f a (x s).state).trace⟩ := by
  unfold Op.bind
  rcases hx : x s with ⟨r, s1, t1⟩
  rw [hx] at h
  simp only at h
  subst h
  rfl

theorem Op.bind_error {x : Op σ α} {f : α → Op σ β} {s : σ} {e : String}
    (h : (x s).res = Res.error e) :
    Op.bind x f s = ⟨Res.error e, (x s).state, (x s).trace⟩ := by
  unfold Op.bind
  rcases hx : x s with ⟨r, s1, t1⟩
  rw [hx] at h
  simp only at h
  subst h
  rfl

theorem Op.bind_panic {x : Op σ α} {f : α → Op σ β} {s : σ}
    (h : (x s).res = Res.panic) :
    Op.bind x f s = ⟨Res.panic, (x s).state, (x s).trace⟩ := by
  unfold Op.bind
  rcases hx : x s with ⟨r, s1, t1⟩
  rw [hx] at h
  simp only at h
  subst h
  rfl

theorem Issues.pure_issues (p : Event → Prop) (a : α) : Issues p (Op.pure a : Op σ α) := by
  intro s ev h
  simp [Op.pure_apply] at h

theorem Issues.bind_issues {p : Event → Prop} {x : Op σ α} {f : α → Op σ β}
    (hx : Issues p x) (hf : ∀ a, Issues p (f a)) : Issues p (Op.bind x f) := by
  intro s ev h
  rcases hr : (x s).res with a | e | _
  · rw [Op.bind_ok hr] at h
    rcases List.mem_append.1 h with h | h
    · exact hx s ev h
    · exact hf a _ ev h
  · rw [Op.bind_error hr] at h
    exact hx s ev h
  · rw [Op.bind_panic hr] at h
    exact hx s ev h

theorem Issues.issue_issues {p : Event → Prop} (c : Call) (respond : σ → Except String α × σ)
    (rep : α → Reply) (h : ∀ r, p ⟨c, r⟩) : Issues p (issue c respond rep) := by
  intro s ev hev
  unfold Looker.issue at hev
  rcases hr : respond s with ⟨r, s1⟩
  rw [hr] at hev
  cases r <;> simp at hev <;> subst hev <;> exact h _

theorem Issues.mapError_issues {p : Event → Prop} {x : Op σ α} (wrap : String → String)
    (hx : Issues p x) : Issues p (Op.mapError wrap x) := by
  intro s ev h
  have : (Op.mapError wrap x s).trace = (x s).trace := by
    unfold Op.mapError
    rcases x s with ⟨r, s1, t1⟩
    cases r <;> rfl
  rw [this] at h
  exact hx s ev h

theorem Issues.deref_issues (p : Event → Prop) (o : Option String) : Issues p (deref o : Op σ String) := by
  intro s ev h
  cases o <;> simp [Looker.deref, Op.pure_apply] at h

theorem Issues.orPanic_issues (p : Event → Prop) (o : Option α) : Issues p (orPanic o : Op σ α) := by
  intro s ev h
  cases o <;> simp [Looker.orPanic, Op.pure_apply] at h

theorem Issues.mono {p q : Event → Prop} {x : Op σ α} (h : ∀ ev, p ev → q ev)
    (hx : Issues p x) : Issues q x :=
  fun s ev hev => h ev (hx s ev hev)

theorem contains_iff (l : List String) (v : String) : contains l v = true ↔ v ∈ l := by
  induction l with
  | nil => simp [contains]
  | cons a l ih =>
    by_cases h : a = v
    · simp [contains, h]
    · simp [contains, h, ih, Ne.symm h]

theorem checkUsersExist_issues (m : LookerSDK σ) (userIDs : List String) :
    Issues (fun ev => ∃ u, u ∈ userIDs ∧ ev.call = Call.User u) (checkUsersExist m userIDs) := by
  induction userIDs with
  | nil => exact Issues.pure_issues _ _
  | cons u rest ih =>
    rw [checkUsersExist, bind_def]
    refine Issues.bind_issues (Issues.mapError_issues _ ?_) (fun _ => ih.mono ?_)
    · exact Issues.issue_issues _ _ _ (fun _ => ⟨u, List.mem_cons_self _ _, rfl⟩)
    · rintro ev ⟨v, hv, h⟩
      exact ⟨v, List.mem_cons_of_mem _ hv, h⟩

theorem addGroupUsers_issues (m : LookerSDK σ) (g : String) (userIDs : List String) :
    Issues (fun ev => ∃ u, u ∈ userIDs ∧ ev.call = Call.AddGroupUser g u)
      (addGroupUsers m g userIDs) := by
  induction userIDs with
  | nil => exact Issues.pure_issues _ _
  | cons u rest ih =>
    rw [addGroupUsers, bind_def]
    refine Issues.bind_issues ?_ (fun _ => ih.mono ?_)
    · exact Issues.issue_issues _ _ _ (fun _ => ⟨u, List.mem_cons_self _ _, rfl⟩)
    · rintro ev ⟨v, hv, h⟩
      exact ⟨v, List.mem_cons_of_mem _ hv, h⟩

theorem addGroupGroups_issues (m : LookerSDK σ) (g : String) (groupIDs : List String) :
    Issues (fun ev => ∃ x, x ∈ groupIDs ∧ ev.call = Call.AddGroupGroup g x)
      (addGroupGroups m g groupIDs) := by
  induction groupIDs with
  | nil => exact Issues.pure_issues _ _
  | cons u rest ih =>
    rw [addGroupGroups, bind_def]
    refine Issues.bind_issues ?_ (fun _ => ih.mono ?_)
    · exact Issues.issue_issues _ _ _ (fun _ => ⟨u, List.mem_cons_self _ _, rfl⟩)
    · rintro ev ⟨v, hv, h⟩
      exact ⟨v, List.mem_cons_of_mem _ hv, h⟩

theorem removeAllUsersFromGroup_loop_issues (m : LookerSDK σ) (g : String)
    (protectedUserIDs : List String) (users : List apiclient.User) :
    Issues (fun ev => ∃ u, u ∉ protectedUserIDs ∧ ev.call = Call.DeleteGroupUser g u)
      (removeAllUsersFromGroup.loop m g protectedUserIDs users) := by
  induction users with
  | nil => exact Issues.pure_issues _ _
  | cons user rest ih =>
    rw [removeAllUsersFromGroup.loop, bind_def]
    refine Issues.bind_issues (Issues.deref_issues _ _) (fun id => ?_)
    simp only [bind_def, pure_def]
    by_cases hc : (protectedUserIDs.isEmpty || !contains protectedUserIDs id) = true
    · rw [if_pos hc]
      refine Issues.bind_issues (Issues.issue_issues _ _ _ (fun _ => ⟨id, ?_, rfl⟩)) (fun _ => ih)
      rcases Bool.or_eq_true_iff.1 hc with h | h
      · intro hmem
        rw [List.isEmpty_iff] at h
        rw [h] at hmem
        exact List.not_mem_nil _ hmem
      · intro hmem
        rw [(contains_iff _ _).2 hmem] at h
        exact Bool.noConfusion h
    · rw [if_neg hc]
      exact Issues.bind_issues (Issues.pure_issues _ _) (fun _ => ih)

theorem removeAllUsersFromGroup_issues (m : LookerSDK σ) (g : String)
    (protectedUserIDs : List String) :
    Issues (fun ev => ev.call = Call.AllGroupUsers g ∨
        ∃ u, u ∉ protectedUserIDs ∧ ev.call = Call.DeleteGroupUser g u)
      (removeAllUsersFromGroup m g protectedUserIDs) := by
  rw [removeAllUsersFromGroup, bind_def]
  refine Issues.bind_issues ?_ (fun users => ?_)
  · exact Issues.issue_issues _ _ _ (fun _ => Or.inl rfl)
  · exact (removeAllUsersFromGroup_loop_issues m g protectedUserIDs users).mono
      (fun _ h => Or.inr h)

theorem removeAllGroupsFromGroup_loop_issues (m : LookerSDK σ) (g : String)
    (groups : List apiclient.Group) :
    Issues (fun ev => ∃ x, ev.call = Call.DeleteGroupFromGroup g x)
      (removeAllGroupsFromGroup.loop m g groups) := by
  induction groups with
  | nil => exact Issues.pure_issues _ _
  | cons group rest ih =>
    rw [removeAllGroupsFromGroup.loop, bind_def]
    refine Issues.bind_issues (Issues.deref_issues _ _) (fun id => ?_)
    rw [bind_def]
    exact Issues.bind_issues (Issues.issue_issues _ _ _ (fun _ => ⟨id, rfl⟩)) (fun _ => ih)

theorem removeAllGroupsFromGroup_issues (m : LookerSDK σ) (g : String) :
    Issues (fun ev => ev.call = Call.AllGroupGroups g ∨
        ∃ x, ev.call = Call.DeleteGroupFromGroup g x)
      (removeAllGroupsFromGroup m g) := by
  rw [removeAllGroupsFromGroup, bind_def]
  refine Issues.bind_issues ?_ (fun groups => ?_)
  · exact Issues.issue_issues _ _ _ (fun _ => Or.inl rfl)
  · exact (removeAllGroupsFromGroup_loop_issues m g groups).mono (fun _ h => Or.inr h)

theorem getGroupIDs_issues (m : LookerSDK σ) (g : String) :
    Issues (fun ev => ev.call = Call.AllGroupGroups g) (getGroupIDs m g) := by
  rw [getGroupIDs, bind_def]
  exact Issues.bind_issues (Issues.issue_issues _ _ _ (fun _ => rfl)) (fun _ => Issues.orPanic_issues _ _)

theorem resourceGroupMembershipRead_issues (m : LookerSDK σ) (d : ResourceData) :
    Issues (fun ev => ev.call = Call.AllGroupUsers d.target_group_id ∨
        ev.call = Call.AllGroupGroups d.target_group_id)
      (resourceGroupMembershipRead m d) := by
  unfold resourceGroupMembershipRead
  simp only [bind_def, pure_def]
  refine Issues.bind_issues (Issues.issue_issues _ _ _ (fun _ => Or.inl rfl)) (fun _ => ?_)
  refine Issues.bind_issues (Issues.issue_issues _ _ _ (fun _ => Or.inr rfl)) (fun _ => ?_)
  refine Issues.bind_issues (Issues.orPanic_issues _ _) (fun _ => ?_)
  exact Issues.bind_issues (Issues.orPanic_issues _ _) (fun _ => Issues.pure_issues _ _)

theorem Op.pure_bind (a : α) (f : α → Op σ β) : Op.bind (Op.pure a) f = f a := by
  funext s
  rfl

theorem removeAllUsersFromGroup_loop_cons (m : LookerSDK σ) (g : String) (P : List String)
    (user : apiclient.User) (rest : List apiclient.User) :
    removeAllUsersFromGroup.loop m g P (user :: rest) =
      (deref user.Id).bind fun id =>
      (if (P.isEmpty || !contains P id) = true then client.DeleteGroupUser m g id
        else Op.pure ()).bind fun _ =>
      removeAllUsersFromGroup.loop m g P rest := by
  rw [removeAllUsersFromGroup.loop]
  simp only [bind_def, pure_def]
  refine congrArg (Op.bind _) (funext fun id => ?_)
  by_cases h : (P.isEmpty || !contains P id) = true
  · simp only [h, if_true]
  · simp only [h]
    rfl

theorem resourceGroupMembershipRead_eq (m : LookerSDK σ) (d : ResourceData) :
    resourceGroupMembershipRead m d =
      (client.AllGroupUsers m d.target_group_id).bind fun users =>
      (client.AllGroupGroups m d.target_group_id).bind fun groups =>
      (orPanic (flattenUserIDs users)).bind fun userIDs =>
      (orPanic (flattenGroupIDs groups)).bind fun groupIDs =>
      Op.pure { d with user_ids := schemaSetOf userIDs, group_ids := schemaSetOf groupIDs } := by
  rfl

theorem resourceGroupMembershipCreate_eq (m : LookerSDK σ) (d : ResourceData) :
    resourceGroupMembershipCreate m d =
      (addGroupUsers m d.target_group_id d.user_ids).bind fun _ =>
      (addGroupGroups m d.target_group_id d.group_ids).bind fun _ =>
      resourceGroupMembershipRead m { d with Id := d.target_group_id } := by
  rfl

theorem resourceGroupMembershipUpdate_eq (m : LookerSDK σ) (d : ResourceData) :
    resourceGroupMembershipUpdate m d =
      (checkUsersExist m d.user_ids).bind fun _ =>
      (removeAllUsersFromGroup m d.Id d.delete_protected_user_ids).bind fun _ =>
      (getGroupIDs m d.Id).bind fun actualGroupIDs =>
        if differentStringSlices actualGroupIDs d.group_ids = true then
          (removeAllGroupsFromGroup m d.Id).bind fun _ =>
          (addGroupUsers m d.Id d.user_ids).bind fun _ =>
          (addGroupGroups m d.Id d.group_ids).bind fun _ =>
          resourceGroupMembershipRead m d
        else
          (addGroupUsers m d.Id d.user_ids).bind fun _ =>
          resourceGroupMembershipRead m d := by
  unfold resourceGroupMembershipUpdate
  simp only [bind_def, pure_def, expandStringListFromSet, Op.pure_bind]
  refine congrArg (Op.bind _) (funext fun _ => ?_)
  refine congrArg (Op.bind _) (funext fun _ => ?_)
  refine congrArg (Op.bind _) (funext fun actual => ?_)
  by_cases h : differentStringSlices actual d.group_ids = true
  · simp only [h, if_true]
  · simp only [h]
    rfl

theorem resourceGroupMembershipDelete_eq (m : LookerSDK σ) (d : ResourceData) :
    resourceGroupMembershipDelete m d =
      (removeAllUsersFromGroup m d.Id d.delete_protected_user_ids).bind fun _ =>
      (removeAllGroupsFromGroup m d.Id).bind fun _ =>
      resourceGroupMembershipRead m d := by
  rfl

theorem resourceGroupMembershipUpdate_issues (m : LookerSDK σ) (d : ResourceData) :
    Issues (fun ev => UpdateCall d ev.call) (resourceGroupMembershipUpdate m d) := by
  rw [resourceGroupMembershipUpdate_eq]
  have hRead : Issues (fun ev => UpdateCall d ev.call) (resourceGroupMembershipRead m d) :=
    (resourceGroupMembershipRead_issues m d).mono (fun ev h => by
      rcases h with h | h
      · exact Or.inr (Or.inr (Or.inr (Or.inr (Or.inr (Or.inr (Or.inr (Or.inl h)))))))
      · exact Or.inr (Or.inr (Or.inr (Or.inr (Or.inr (Or.inr (Or.inr (Or.inr h))))))))
  have hAddU : Issues (fun ev => UpdateCall d ev.call) (addGroupUsers m d.Id d.user_ids) :=
    (addGroupUsers_issues m d.Id d.user_ids).mono (fun ev h =>
      Or.inr (Or.inr (Or.inr (Or.inr (Or.inr (Or.inl h))))))
  refine Issues.bind_issues ((checkUsersExist_issues m d.user_ids).mono (fun ev h => Or.inl h))
    (fun _ => ?_)
  refine Issues.bind_issues ((removeAllUsersFromGroup_issues m d.Id _).mono (fun ev h => ?_))
    (fun _ => ?_)
  · rcases h with h | h
    · exact Or.inr (Or.inl h)
    · exact Or.inr (Or.inr (Or.inl h))
  refine Issues.bind_issues ((getGroupIDs_issues m d.Id).mono
    (fun ev h => Or.inr (Or.inr (Or.inr (Or.inl h))))) (fun actual => ?_)
  by_cases hc : differentStringSlices actual d.group_ids = true
  · rw [if_pos hc]
    refine Issues.bind_issues ((removeAllGroupsFromGroup_issues m d.Id).mono (fun ev h => ?_))
      (fun _ => Issues.bind_issues hAddU (fun _ => Issues.bind_issues
        ((addGroupGroups_issues m d.Id d.group_ids).mono (fun ev h =>
          Or.inr (Or.inr (Or.inr (Or.inr (Or.inr (Or.inr (Or.inl h)))))))) (fun _ => hRead)))
    rcases h with h | h
    · exact Or.inr (Or.inr (Or.inr (Or.inl h)))
    · exact Or.inr (Or.inr (Or.inr (Or.inr (Or.inl h))))
  · rw [if_neg hc]
    exact Issues.bind_issues hAddU (fun _ => hRead)

theorem resourceGroupMembershipDelete_issues (m : LookerSDK σ) (d : ResourceData) :
    Issues (fun ev => DeleteCall d ev.call) (resourceGroupMembershipDelete m d) := by
  rw [resourceGroupMembershipDelete_eq]
  refine Issues.bind_issues ((removeAllUsersFromGroup_issues m d.Id _).mono (fun ev h => ?_))
    (fun _ => Issues.bind_issues ((removeAllGroupsFromGroup_issues m d.Id).mono (fun ev h => ?_))
      (fun _ => (resourceGroupMembershipRead_issues m d).mono (fun ev h => ?_)))
  · rcases h with h | h
    · exact Or.inl h
    · exact Or.inr (Or.inl h)
  · rcases h with h | h
    · exact Or.inr (Or.inr (Or.inl h))
    · exact Or.inr (Or.inr (Or.inr (Or.inl h)))
  · rcases h with h | h
    · exact Or.inr (Or.inr (Or.inr (Or.inr (Or.inl h))))
    · exact Or.inr (Or.inr (Or.inr (Or.inr (Or.inr h))))

theorem resourceGroupMembershipCreate_issues (m : LookerSDK σ) (d : ResourceData) :
    Issues (fun ev => CreateCall d ev.call) (resourceGroupMembershipCreate m d) := by
  rw [resourceGroupMembershipCreate_eq]
  refine Issues.bind_issues ((addGroupUsers_issues m _ _).mono (fun ev h => Or.inl h))
    (fun _ => Issues.bind_issues ((addGroupGroups_issues m _ _).mono (fun ev h => Or.inr (Or.inl h)))
      (fun _ => (resourceGroupMembershipRead_issues m _).mono (fun ev h => ?_)))
  rcases h with h | h
  · exact Or.inr (Or.inr (Or.inl h))
  · exact Or.inr (Or.inr (Or.inr h))

theorem AbortsOnFailure.pure_aborts (a : α) : AbortsOnFailure (Op.pure a : Op σ α) := by
  intro s
  refine ⟨fun e h => ?_, fun _ x hx => ?_⟩
  · simp [Op.pure_apply] at h
  · simp [Op.pure_apply] at hx

theorem AbortsOnFailure.deref_aborts (o : Option String) : AbortsOnFailure (deref o : Op σ String) := by
  intro s
  cases o with
  | some v => exact AbortsOnFailure.pure_aborts v s
  | none =>
    refine ⟨fun e h => ?_, fun _ x hx => ?_⟩
    · simp [Looker.deref] at h
    · simp [Looker.deref] at hx

theorem AbortsOnFailure.orPanic_aborts (o : Option α) : AbortsOnFailure (orPanic o : Op σ α) := by
  intro s
  cases o with
  | some v => exact AbortsOnFailure.pure_aborts v s
  | none =>
    refine ⟨fun e h => ?_, fun _ x hx => ?_⟩
    · simp [Looker.orPanic] at h
    · simp [Looker.orPanic] at hx

theorem AbortsOnFailure.issue_aborts (c : Call) (respond : σ → Except String α × σ)
    (rep : α → Reply) (hrep : ∀ a, (⟨c, rep a⟩ : Event).failed = false) :
    AbortsOnFailure (issue c respond rep) := by
  intro s
  unfold Looker.issue
  rcases hr : respond s with ⟨r, s1⟩
  cases r with
  | ok a =>
    refine ⟨fun e h => ?_, fun _ x hx => ?_⟩
    · simp at h
    · simp at hx
      subst hx
      exact hrep a
  | error e =>
    refine ⟨fun e1 h => ?_, fun h => ?_⟩
    · simp at h
      subst h
      exact ⟨[], ⟨c, Reply.failed e⟩, rfl, by simp, rfl, Or.inl rfl⟩
    · exact absurd rfl (h e)

theorem AbortsOnFailure.lookup_aborts (m : LookerSDK σ) (userID : String) :
    AbortsOnFailure (Op.mapError (wrapFetchError userID) (client.User m userID)) := by
  intro s
  unfold Op.mapError client.User Looker.issue
  rcases hr : m.User userID s with ⟨r, s1⟩
  cases r with
  | ok a =>
    refine ⟨fun e h => ?_, fun _ x hx => ?_⟩
    · simp at h
    · simp at hx
      subst hx
      rfl
  | error e =>
    refine ⟨fun e1 h => ?_, fun h => ?_⟩
    · simp at h
      subst h
      exact ⟨[], ⟨Call.User userID, Reply.failed e⟩, rfl, by simp, rfl,
        Or.inr ⟨userID, e, rfl, rfl⟩⟩
    · exact absurd rfl (h (wrapFetchError userID e))

theorem AbortsOnFailure.bind_aborts {x : Op σ α} {f : α → Op σ β}
    (hx : AbortsOnFailure x) (hf : ∀ a, AbortsOnFailure (f a)) :
    AbortsOnFailure (Op.bind x f) := by
  intro s
  rcases hr : (x s).res with a | e | _
  · rw [Op.bind_ok hr]
    have hx1 : ∀ y, y ∈ (x s).trace → y.failed = false :=
      (hx s).2 (fun e he => by rw [hr] at he; exact Res.noConfusion he)
    refine ⟨fun e he => ?_, fun hne y hy => ?_⟩
    · obtain ⟨pre, ev, ht, hpre, hev, hs⟩ := (hf a (x s).state).1 e he
      refine ⟨(x s).trace ++ pre, ev, ?_, ?_, hev, hs⟩
      · show (x s).trace ++ (f a (x s).state).trace = _
        rw [ht, List.append_assoc]
      · intro y hy
        rcases List.mem_append.1 hy with hy | hy
        · exact hx1 y hy
        · exact hpre y hy
    · rcases List.mem_append.1 hy with hy | hy
      · exact hx1 y hy
      · exact (hf a (x s).state).2 hne y hy
  · rw [Op.bind_error hr]
    refine ⟨fun e1 he => ?_, fun hne => absurd rfl (hne e)⟩
    injection he with he
    subst he
    exact (hx s).1 e hr
  · rw [Op.bind_panic hr]
    refine ⟨fun e he => Res.noConfusion he, fun _ y hy => ?_⟩
    exact (hx s).2 (fun e he => by rw [hr] at he; exact Res.noConfusion he) y hy

theorem replay_append (m : LookerSDK σ) (t1 t2 : List Call) (s : σ) :
    replay m (t1 ++ t2) s = replay m t2 (replay m t1 s) := by
  induction t1 generalizing s with
  | nil => rfl
  | cons c rest ih =>
    cases c <;> exact ih _

theorem Replays.pure_replays (m : LookerSDK σ) (a : α) : Replays m (Op.pure a : Op σ α) :=
  fun _ => rfl

theorem Replays.deref_replays (m : LookerSDK σ) (o : Option String) :
    Replays m (deref o : Op σ String) := by
  intro s
  cases o <;> rfl

theorem Replays.orPanic_replays (m : LookerSDK σ) (o : Option α) : Replays m (orPanic o : Op σ α) := by
  intro s
  cases o <;> rfl

theorem Replays.bind_replays {m : LookerSDK σ} {x : Op σ α} {f : α → Op σ β}
    (hx : Replays m x) (hf : ∀ a, Replays m (f a)) : Replays m (Op.bind x f) := by
  intro s
  rcases hr : (x s).res with a | e | _
  · rw [Op.bind_ok hr]
    show (f a (x s).state).state = _
    rw [List.map_append, replay_append, ← hx s]
    exact hf a _
  · rw [Op.bind_error hr]
    exact hx s
  · rw [Op.bind_panic hr]
    exact hx s

theorem Replays.mapError_replays {m : LookerSDK σ} {x : Op σ α} (wrap : String → String)
    (hx : Replays m x) : Replays m (Op.mapError wrap x) := by
  intro s
  have h : (Op.mapError wrap x s).trace = (x s).trace ∧
      (Op.mapError wrap x s).state = (x s).state := by
    unfold Op.mapError
    rcases x s with ⟨r, s1, t1⟩
    cases r <;> exact ⟨rfl, rfl⟩
  rw [h.1, h.2]
  exact hx s

theorem issue_state_trace (c : Call) (respond : σ → Except String α × σ) (rep : α → Reply)
    (s : σ) : (issue c respond rep s).state = (respond s).2 ∧
      (issue c respond rep s).trace.map Event.call = [c] := by
  unfold Looker.issue
  rcases respond s with ⟨r, s1⟩
  cases r <;> exact ⟨rfl, rfl⟩

theorem Replays.AllGroupUsers_replays (m : LookerSDK σ) (g : String) :
    Replays m (client.AllGroupUsers m g) := by
  intro s
  unfold client.AllGroupUsers
  rw [(issue_state_trace _ _ _ s).1, (issue_state_trace _ _ _ s).2]
  rfl

theorem Replays.AllGroupGroups_replays (m : LookerSDK σ) (g : String) :
    Replays m (client.AllGroupGroups m g) := by
  intro s
  unfold client.AllGroupGroups
  rw [(issue_state_trace _ _ _ s).1, (issue_state_trace _ _ _ s).2]
  rfl

theorem Replays.User_replays (m : LookerSDK σ) (u : String) : Replays m (client.User m u) := by
  intro s
  unfold client.User
  rw [(issue_state_trace _ _ _ s).1, (issue_state_trace _ _ _ s).2]
  rfl

theorem Replays.AddGroupUser_replays (m : LookerSDK σ) (g u : String) :
    Replays m (client.AddGroupUser m g u) := by
  intro s
  unfold client.AddGroupUser
  rw [(issue_state_trace _ _ _ s).1, (issue_state_trace _ _ _ s).2]
  rfl

theorem Replays.AddGroupGroup_replays (m : LookerSDK σ) (g x : String) :
    Replays m (client.AddGroupGroup m g x) := by
  intro s
  unfold client.AddGroupGroup
  rw [(issue_state_trace _ _ _ s).1, (issue_state_trace _ _ _ s).2]
  rfl

theorem Replays.DeleteGroupUser_replays (m : LookerSDK σ) (g u : String) :
    Replays m (client.DeleteGroupUser m g u) := by
  intro s
  unfold client.DeleteGroupUser
  rw [(issue_state_trace _ _ _ s).1, (issue_state_trace _ _ _ s).2]
  rfl

theorem Replays.DeleteGroupFromGroup_replays (m : LookerSDK σ) (g x : String) :
    Replays m (client.DeleteGroupFromGroup m g x) := by
  intro s
  unfold client.DeleteGroupFromGroup
  rw [(issue_state_trace _ _ _ s).1, (issue_state_trace _ _ _ s).2]
  rfl

theorem Sound.pure_sound (m : LookerSDK σ) (a : α) : Sound m (Op.pure a : Op σ α) :=
  ⟨AbortsOnFailure.pure_aborts a, Replays.pure_replays m a⟩

theorem Sound.bind_sound {m : LookerSDK σ} {x : Op σ α} {f : α → Op σ β}
    (hx : Sound m x) (hf : ∀ a, Sound m (f a)) : Sound m (Op.bind x f) :=
  ⟨AbortsOnFailure.bind_aborts hx.1 (fun a => (hf a).1), Replays.bind_replays hx.2 (fun a => (hf a).2)⟩

theorem Sound.deref_sound (m : LookerSDK σ) (o : Option String) : Sound m (deref o : Op σ String) :=
  ⟨AbortsOnFailure.deref_aborts o, Replays.deref_replays m o⟩

theorem Sound.orPanic_sound (m : LookerSDK σ) (o : Option α) : Sound m (orPanic o : Op σ α) :=
  ⟨AbortsOnFailure.orPanic_aborts o, Replays.orPanic_replays m o⟩

theorem Sound.AllGroupUsers_sound (m : LookerSDK σ) (g : String) :
    Sound m (client.AllGroupUsers m g) :=
  ⟨AbortsOnFailure.issue_aborts _ _ _ (fun _ => rfl), Replays.AllGroupUsers_replays m g⟩

theorem Sound.AllGroupGroups_sound (m : LookerSDK σ) (g : String) :
    Sound m (client.AllGroupGroups m g) :=
  ⟨AbortsOnFailure.issue_aborts _ _ _ (fun _ => rfl), Replays.AllGroupGroups_replays m g⟩

theorem Sound.lookup_sound (m : LookerSDK σ) (u : String) :
    Sound m (Op.mapError (wrapFetchError u) (client.User m u)) :=
  ⟨AbortsOnFailure.lookup_aborts m u, Replays.mapError_replays _ (Replays.User_replays m u)⟩

theorem Sound.AddGroupUser_sound (m : LookerSDK σ) (g u : String) :
    Sound m (client.AddGroupUser m g u) :=
  ⟨AbortsOnFailure.issue_aborts _ _ _ (fun _ => rfl), Replays.AddGroupUser_replays m g u⟩

theorem Sound.AddGroupGroup_sound (m : LookerSDK σ) (g x : String) :
    Sound m (client.AddGroupGroup m g x) :=
  ⟨AbortsOnFailure.issue_aborts _ _ _ (fun _ => rfl), Replays.AddGroupGroup_replays m g x⟩

theorem Sound.DeleteGroupUser_sound (m : LookerSDK σ) (g u : String) :
    Sound m (client.DeleteGroupUser m g u) :=
  ⟨AbortsOnFailure.issue_aborts _ _ _ (fun _ => rfl), Replays.DeleteGroupUser_replays m g u⟩

theorem Sound.DeleteGroupFromGroup_sound (m : LookerSDK σ) (g x : String) :
    Sound m (client.DeleteGroupFromGroup m g x) :=
  ⟨AbortsOnFailure.issue_aborts _ _ _ (fun _ => rfl), Replays.DeleteGroupFromGroup_replays m g x⟩

theorem addGroupUsers_sound (m : LookerSDK σ) (g : String) (userIDs : List String) :
    Sound m (addGroupUsers m g userIDs) := by
  induction userIDs with
  | nil => exact Sound.pure_sound m ()
  | cons u rest ih =>
    rw [addGroupUsers, bind_def]
    exact Sound.bind_sound (Sound.AddGroupUser_sound m g u) (fun _ => ih)

theorem addGroupGroups_sound (m : LookerSDK σ) (g : String) (groupIDs : List String) :
    Sound m (addGroupGroups m g groupIDs) := by
  induction groupIDs with
  | nil => exact Sound.pure_sound m ()
  | cons u rest ih =>
    rw [addGroupGroups, bind_def]
    exact Sound.bind_sound (Sound.AddGroupGroup_sound m g u) (fun _ => ih)

theorem checkUsersExist_sound (m : LookerSDK σ) (userIDs : List String) :
    Sound m (checkUsersExist m userIDs) := by
  induction userIDs with
  | nil => exact Sound.pure_sound m ()
  | cons u rest ih =>
    rw [checkUsersExist, bind_def]
    exact Sound.bind_sound (Sound.lookup_sound m u) (fun _ => ih)

theorem removeAllUsersFromGroup_sound (m : LookerSDK σ) (g : String) (P : List String) :
    Sound m (removeAllUsersFromGroup m g P) := by
  rw [removeAllUsersFromGroup, bind_def]
  refine Sound.bind_sound (Sound.AllGroupUsers_sound m g) (fun users => ?_)
  induction users with
  | nil => exact Sound.pure_sound m ()
  | cons user rest ih =>
    rw [removeAllUsersFromGroup_loop_cons]
    refine Sound.bind_sound (Sound.deref_sound m _) (fun id => Sound.bind_sound ?_ (fun _ => ih))
    by_cases hc : (P.isEmpty || !contains P id) = true
    · rw [if_pos hc]
      exact Sound.DeleteGroupUser_sound m g id
    · rw [if_neg hc]
      exact Sound.pure_sound m ()

theorem removeAllGroupsFromGroup_sound (m : LookerSDK σ) (g : String) :
    Sound m (removeAllGroupsFromGroup m g) := by
  rw [removeAllGroupsFromGroup, bind_def]
  refine Sound.bind_sound (Sound.AllGroupGroups_sound m g) (fun groups => ?_)
  induction groups with
  | nil => exact Sound.pure_sound m ()
  | cons group rest ih =>
    rw [removeAllGroupsFromGroup.loop, bind_def]
    refine Sound.bind_sound (Sound.deref_sound m _) (fun id => ?_)
    rw [bind_def]
    exact Sound.bind_sound (Sound.DeleteGroupFromGroup_sound m g id) (fun _ => ih)

theorem getGroupIDs_sound (m : LookerSDK σ) (g : String) : Sound m (getGroupIDs m g) := by
  rw [getGroupIDs, bind_def]
  exact Sound.bind_sound (Sound.AllGroupGroups_sound m g) (fun _ => Sound.orPanic_sound m _)

theorem resourceGroupMembershipRead_sound (m : LookerSDK σ) (d : ResourceData) :
    Sound m (resourceGroupMembershipRead m d) := by
  rw [resourceGroupMembershipRead_eq]
  exact Sound.bind_sound (Sound.AllGroupUsers_sound m _) (fun _ =>
    Sound.bind_sound (Sound.AllGroupGroups_sound m _) (fun _ =>
      Sound.bind_sound (Sound.orPanic_sound m _) (fun _ =>
        Sound.bind_sound (Sound.orPanic_sound m _) (fun _ => Sound.pure_sound m _))))

theorem resourceGroupMembershipCreate_sound (m : LookerSDK σ) (d : ResourceData) :
    Sound m (resourceGroupMembershipCreate m d) := by
  rw [resourceGroupMembershipCreate_eq]
  exact Sound.bind_sound (addGroupUsers_sound m _ _) (fun _ =>
    Sound.bind_sound (addGroupGroups_sound m _ _) (fun _ => resourceGroupMembershipRead_sound m _))

theorem resourceGroupMembershipUpdate_sound (m : LookerSDK σ) (d : ResourceData) :
    Sound m (resourceGroupMembershipUpdate m d) := by
  rw [resourceGroupMembershipUpdate_eq]
  refine Sound.bind_sound (checkUsersExist_sound m _) (fun _ =>
    Sound.bind_sound (removeAllUsersFromGroup_sound m _ _) (fun _ =>
      Sound.bind_sound (getGroupIDs_sound m _) (fun actual => ?_)))
  by_cases hc : differentStringSlices actual d.group_ids = true
  · rw [if_pos hc]
    exact Sound.bind_sound (removeAllGroupsFromGroup_sound m _) (fun _ =>
      Sound.bind_sound (addGroupUsers_sound m _ _) (fun _ =>
        Sound.bind_sound (addGroupGroups_sound m _ _) (fun _ =>
          resourceGroupMembershipRead_sound m d)))
  · rw [if_neg hc]
    exact Sound.bind_sound (addGroupUsers_sound m _ _) (fun _ => resourceGroupMembershipRead_sound m d)

theorem resourceGroupMembershipDelete_sound (m : LookerSDK σ) (d : ResourceData) :
    Sound m (resourceGroupMembershipDelete m d) := by
  rw [resourceGroupMembershipDelete_eq]
  exact Sound.bind_sound (removeAllUsersFromGroup_sound m _ _) (fun _ =>
    Sound.bind_sound (removeAllGroupsFromGroup_sound m _) (fun _ =>
      resourceGroupMembershipRead_sound m d))

theorem last_of_split {pre1 pre post : List Event} {ev1 ev : Event}
    (h : pre1 ++ [ev1] = pre ++ ev :: post) (hnot : ev ∉ pre1) :
    post = [] ∧ pre = pre1 ∧ ev = ev1 := by
  induction pre1 generalizing pre with
  | nil =>
    cases pre with
    | nil =>
      simp at h
      exact ⟨h.2, rfl, h.1.symm⟩
    | cons p ps => simp at h
  | cons a rest ih =>
    cases pre with
    | nil =>
      simp at h
      exact absurd (by rw [h.1]; simp) hnot
    | cons p ps =>
      simp at h
      obtain ⟨hp, hrest⟩ := h
      obtain ⟨h1, h2, h3⟩ := ih hrest (fun hin => hnot (List.mem_cons_of_mem _ hin))
      exact ⟨h1, by rw [hp, h2], h3⟩

theorem Sound.policy {m : LookerSDK σ} {x : Op σ α} (hx : Sound m x) (s : σ) :
    FirstFailurePolicy m s (x s) := by
  obtain ⟨hff, hrep⟩ := hx
  have h := hff s
  refine ⟨⟨?_, ?_⟩, ?_, hrep s⟩
  · rintro ⟨e, he⟩
    obtain ⟨pre, ev, ht, _, hev, _⟩ := h.1 e he
    exact ⟨ev, by rw [ht]; simp, hev⟩
  · rintro ⟨ev, hmem, hev⟩
    by_contra hne
    have := h.2 (fun e he => hne ⟨e, he⟩) ev hmem
    rw [this] at hev
    exact Bool.noConfusion hev
  · intro pre ev post ht hev
    have hmem : ev ∈ (x s).trace := by rw [ht]; simp
    have herr : ∃ e, (x s).res = Res.error e := by
      by_contra hne
      have := h.2 (fun e he => hne ⟨e, he⟩) ev hmem
      rw [this] at hev
      exact Bool.noConfusion hev
    obtain ⟨e, he⟩ := herr
    obtain ⟨pre1, ev1, ht1, hpre1, _, hs1⟩ := h.1 e he
    rw [ht1] at ht
    have hnot : ev ∉ pre1 := fun hin => by
      have := hpre1 ev hin
      rw [this] at hev
      exact Bool.noConfusion hev
    obtain ⟨hpost, hpre, hevs⟩ := last_of_split ht hnot
    subst hpost hpre hevs
    exact ⟨rfl, hpre1, e, he, hs1⟩

theorem bind_trace_forall {q : Event → Prop} {x : Op σ α} {f : α → Op σ β} {s : σ}
    (hx : ∀ ev, ev ∈ (x s).trace → q ev)
    (hf : ∀ a, (x s).res = Res.ok a → ∀ ev, ev ∈ (f a (x s).state).trace → q ev) :
    ∀ ev, ev ∈ (Op.bind x f s).trace → q ev := by
  intro ev h
  rcases hr : (x s).res with a | e | _
  · rw [Op.bind_ok hr] at h
    rcases List.mem_append.1 h with h | h
    · exact hx ev h
    · exact hf a hr ev h
  · rw [Op.bind_error hr] at h
    exact hx ev h
  · rw [Op.bind_panic hr] at h
    exact hx ev h

theorem bind_trace_find {p : Event → Bool} {x : Op σ α} {f : α → Op σ β} {s : σ} {a : α}
    (hx : ∀ ev, ev ∈ (x s).trace → p ev = false) (hr : (x s).res = Res.ok a) :
    (Op.bind x f s).trace.find? p = (f a (x s).state).trace.find? p := by
  rw [Op.bind_ok hr]
  show ((x s).trace ++ (f a (x s).state).trace).find? p = _
  rw [List.find?_append]
  have : (x s).trace.find? p = none := by
    rw [List.find?_eq_none]
    intro ev hev
    rw [hx ev hev]
    exact Bool.false_ne_true
  rw [this]
  rfl

theorem getGroupIDs_run (m : LookerSDK σ) (g : String) (s : σ) :
    getGroupIDs m g s =
      match m.AllGroupGroups g s with
      | (Except.ok l, s1) =>
        ⟨match flattenGroupIDs l with
          | some ids => Res.ok ids
          | none => Res.panic,
          s1, [⟨Call.AllGroupGroups g, Reply.groups l⟩]⟩
      | (Except.error e, s1) =>
        ⟨Res.error e, s1, [⟨Call.AllGroupGroups g, Reply.failed e⟩]⟩ := by
  rw [getGroupIDs, bind_def]
  unfold Op.bind client.AllGroupGroups issue
  rcases m.AllGroupGroups g s with ⟨r, s1⟩
  cases r with
  | error e => rfl
  | ok l =>
    simp only
    cases flattenGroupIDs l <;> rfl

theorem differentStringSlices_eq_false {a b : List String} (h : ∀ x, x ∈ a ↔ x ∈ b) :
    differentStringSlices a b = false := by
  unfold differentStringSlices
  simp
  exact ⟨fun x hx => (h x).1 hx, fun x hx => (h x).2 hx⟩

theorem lookup_run (m : LookerSDK σ) (v : String) (s : σ) :
    Op.mapError (wrapFetchError v) (client.User m v) s =
      match m.User v s with
      | (Except.ok a, s1) => ⟨Res.ok a, s1, [⟨Call.User v, Reply.user a⟩]⟩
      | (Except.error e, s1) =>
        ⟨Res.error (wrapFetchError v e), s1, [⟨Call.User v, Reply.failed e⟩]⟩ := by
  unfold Op.mapError client.User issue
  rcases m.User v s with ⟨r, s1⟩
  cases r <;> rfl

theorem checkUsersExist_fails (m : LookerSDK σ) (userIDs : List String) (u : String)
    (hu : u ∈ userIDs) (hfail : ∀ s, ∃ e, (m.User u s).1 = Except.error e) (s : σ) :
    ∃ e, (checkUsersExist m userIDs s).res = Res.error e := by
  induction userIDs generalizing s with
  | nil => exact absurd hu (List.not_mem_nil _)
  | cons v rest ih =>
    rw [checkUsersExist, bind_def]
    rcases hm : m.User v s with ⟨r, s1⟩
    cases r with
    | error e =>
      have hr : (Op.mapError (wrapFetchError v) (client.User m v) s).res =
          Res.error (wrapFetchError v e) := by
        rw [lookup_run, hm]
      rw [Op.bind_error hr]
      exact ⟨_, rfl⟩
    | ok a =>
      have hr : (Op.mapError (wrapFetchError v) (client.User m v) s).res = Res.ok a := by
        rw [lookup_run, hm]
      rw [Op.bind_ok hr]
      rcases List.mem_cons.1 hu with h | h
      · subst h
        obtain ⟨e, he⟩ := hfail s
        rw [hm] at he
        exact Except.noConfusion he
      · exact ih h _

theorem Op.bind_run {x : Op σ α} {f : α → Op σ β} {s s1 : σ} {a : α} {t1 : List Event}
    (h : x s = ⟨Res.ok a, s1, t1⟩) :
    Op.bind x f s = ⟨(f a s1).res, (f a s1).state, t1 ++ (f a s1).trace⟩ := by
  unfold Op.bind
  rw [h]

theorem flattenUserIDs_userRecords (l : List String) :
    flattenUserIDs (userRecords l) = some l := by
  induction l with
  | nil => rfl
  | cons u rest ih =>
    show flattenUserIDs (⟨some u⟩ :: userRecords rest) = _
    rw [flattenUserIDs, ih]

theorem flattenGroupIDs_groupRecords (l : List String) :
    flattenGroupIDs (groupRecords l) = some l := by
  induction l with
  | nil => rfl
  | cons u rest ih =>
    show flattenGroupIDs (⟨some u⟩ :: groupRecords rest) = _
    rw [flattenGroupIDs, ih]

theorem removal_guard (P : List String) (u : String) :
    (P.isEmpty || !contains P u) = true ↔ u ∉ P := by
  constructor
  · intro hc hmem
    rcases Bool.or_eq_true_iff.1 hc with h | h
    · rw [List.isEmpty_iff] at h
      rw [h] at hmem
      exact List.not_mem_nil _ hmem
    · rw [(contains_iff _ _).2 hmem] at h
      exact Bool.noConfusion h
  · intro hmem
    have : contains P u = false := by
      cases hc : contains P u
      · rfl
      · exact absurd ((contains_iff _ _).1 hc) hmem
    rw [this]
    simp

theorem addGroupUsers_run (g : String) (us : List String) (s : Remote) :
    addGroupUsers setService g us s =
      ⟨Res.ok (), s.addUsers g us, us.map (fun u => ⟨Call.AddGroupUser g u, Reply.done⟩)⟩ := by
  induction us generalizing s with
  | nil => rfl
  | cons u rest ih =>
    rw [addGroupUsers, bind_def,
      Op.bind_run (show client.AddGroupUser setService g u s =
        ⟨Res.ok (), s.addUser g u, [⟨Call.AddGroupUser g u, Reply.done⟩]⟩ from rfl), ih]
    rfl

theorem addGroupGroups_run (g : String) (xs : List String) (s : Remote) :
    addGroupGroups setService g xs s =
      ⟨Res.ok (), s.addGroups g xs, xs.map (fun x => ⟨Call.AddGroupGroup g x, Reply.done⟩)⟩ := by
  induction xs generalizing s with
  | nil => rfl
  | cons u rest ih =>
    rw [addGroupGroups, bind_def,
      Op.bind_run (show client.AddGroupGroup setService g u s =
        ⟨Res.ok (), s.addGroup g u, [⟨Call.AddGroupGroup g u, Reply.done⟩]⟩ from rfl), ih]
    rfl

theorem removeAllUsersFromGroup_loop_run (g : String) (P l : List String) (s : Remote) :
    removeAllUsersFromGroup.loop setService g P (userRecords l) s =
      ⟨Res.ok (), s.deleteUsers g (l.filter (fun u => decide (u ∉ P))),
        (l.filter (fun u => decide (u ∉ P))).map
          (fun u => ⟨Call.DeleteGroupUser g u, Reply.done⟩)⟩ := by
  induction l generalizing s with
  | nil => rfl
  | cons u rest ih =>
    show removeAllUsersFromGroup.loop setService g P (⟨some u⟩ :: userRecords rest) s = _
    rw [removeAllUsersFromGroup_loop_cons]
    show Op.bind (Op.pure u) _ s = _
    rw [Op.pure_bind]
    by_cases hu : u ∈ P
    · rw [if_neg (fun hc => (removal_guard P u).1 hc hu), Op.pure_bind, ih,
        List.filter_cons_of_neg (by simpa using hu)]
    · rw [if_pos ((removal_guard P u).2 hu),
        Op.bind_run (show client.DeleteGroupUser setService g u s =
          ⟨Res.ok (), s.deleteUser g u, [⟨Call.DeleteGroupUser g u, Reply.done⟩]⟩ from rfl), ih,
        List.filter_cons_of_pos (by simpa using hu)]
      rfl

theorem removeAllUsersFromGroup_run (g : String) (P : List String) (s : Remote) :
    removeAllUsersFromGroup setService g P s =
      ⟨Res.ok (), s.deleteUsers g ((s.users g).filter (fun u => decide (u ∉ P))),
        ⟨Call.AllGroupUsers g, Reply.users (userRecords (s.users g))⟩ ::
          ((s.users g).filter (fun u => decide (u ∉ P))).map
            (fun u => ⟨Call.DeleteGroupUser g u, Reply.done⟩)⟩ := by
  rw [removeAllUsersFromGroup, bind_def,
    Op.bind_run (show client.AllGroupUsers setService g s =
      ⟨Res.ok (userRecords (s.users g)), s,
        [⟨Call.AllGroupUsers g, Reply.users (userRecords (s.users g))⟩]⟩ from rfl),
    removeAllUsersFromGroup_loop_run]
  rfl

theorem removeAllGroupsFromGroup_loop_run (g : String) (l : List String) (s : Remote) :
    removeAllGroupsFromGroup.loop setService g (groupRecords l) s =
      ⟨Res.ok (), s.deleteGroups g l,
        l.map (fun x => ⟨Call.DeleteGroupFromGroup g x, Reply.done⟩)⟩ := by
  induction l generalizing s with
  | nil => rfl
  | cons u rest ih =>
    show removeAllGroupsFromGroup.loop setService g (⟨some u⟩ :: groupRecords rest) s = _
    rw [removeAllGroupsFromGroup.loop, bind_def]
    show Op.bind (Op.pure u) _ s = _
    rw [Op.pure_bind, bind_def,
      Op.bind_run (show client.DeleteGroupFromGroup setService g u s =
        ⟨Res.ok (), s.deleteGroup g u, [⟨Call.DeleteGroupFromGroup g u, Reply.done⟩]⟩ from rfl),
      ih]
    rfl

theorem removeAllGroupsFromGroup_run (g : String) (s : Remote) :
    removeAllGroupsFromGroup setService g s =
      ⟨Res.ok (), s.deleteGroups g (s.groups g),
        ⟨Call.AllGroupGroups g, Reply.groups (groupRecords (s.groups g))⟩ ::
          (s.groups g).map (fun x => ⟨Call.DeleteGroupFromGroup g x, Reply.done⟩)⟩ := by
  rw [removeAllGroupsFromGroup, bind_def,
    Op.bind_run (show client.AllGroupGroups setService g s =
      ⟨Res.ok (groupRecords (s.groups g)), s,
        [⟨Call.AllGroupGroups g, Reply.groups (groupRecords (s.groups g))⟩]⟩ from rfl),
    removeAllGroupsFromGroup_loop_run]
  rfl

theorem getGroupIDs_setService (g : String) (s : Remote) :
    getGroupIDs setService g s =
      ⟨Res.ok (s.groups g), s,
        [⟨Call.AllGroupGroups g, Reply.groups (groupRecords (s.groups g))⟩]⟩ := by
  rw [getGroupIDs_run]
  show (⟨match flattenGroupIDs (groupRecords (s.groups g)) with
    | some ids => Res.ok ids
    | none => Res.panic, s, _⟩ : Out Remote (List String)) = _
  rw [flattenGroupIDs_groupRecords]
  rfl

theorem resourceGroupMembershipRead_run (d : ResourceData) (s : Remote) :
    resourceGroupMembershipRead setService d s =
      ⟨Res.ok { d with user_ids := schemaSetOf (s.users d.target_group_id),
                       group_ids := schemaSetOf (s.groups d.target_group_id) }, s,
        [⟨Call.AllGroupUsers d.target_group_id,
            Reply.users (userRecords (s.users d.target_group_id))⟩,
          ⟨Call.AllGroupGroups d.target_group_id,
            Reply.groups (groupRecords (s.groups d.target_group_id))⟩]⟩ := by
  rw [resourceGroupMembershipRead_eq,
    Op.bind_run (show client.AllGroupUsers setService d.target_group_id s =
      ⟨Res.ok (userRecords (s.users d.target_group_id)), s,
        [⟨Call.AllGroupUsers d.target_group_id,
          Reply.users (userRecords (s.users d.target_group_id))⟩]⟩ from rfl),
    Op.bind_run (show client.AllGroupGroups setService d.target_group_id s =
      ⟨Res.ok (groupRecords (s.groups d.target_group_id)), s,
        [⟨Call.AllGroupGroups d.target_group_id,
          Reply.groups (groupRecords (s.groups d.target_group_id))⟩]⟩ from rfl),
    flattenUserIDs_userRecords, flattenGroupIDs_groupRecords]
  rfl

/-! ## The set service state after batches of calls -/

theorem Remote.mem_insert (l : List String) (u x : String) :
    x ∈ Remote.insert l u ↔ x ∈ l ∨ x = u := by
  unfold Remote.insert
  by_cases h : u ∈ l
  · rw [if_pos h]
    constructor
    · exact Or.inl
    · rintro (hx | hx)
      · exact hx
      · rw [hx]; exact h
  · rw [if_neg h]
    simp

theorem Remote.mem_foldl_insert (us l : List String) (x : String) :
    x ∈ us.foldl Remote.insert l ↔ x ∈ l ∨ x ∈ us := by
  induction us generalizing l with
  | nil => simp
  | cons u rest ih =>
    rw [List.foldl_cons, ih, Remote.mem_insert, List.mem_cons, or_assoc]

theorem Remote.foldl_remove (rs l : List String) :
    rs.foldl Remote.remove l = l.filter (fun y => decide (y ∉ rs)) := by
  induction rs generalizing l with
  | nil => simp
  | cons r rest ih =>
    rw [List.foldl_cons, ih]
    unfold Remote.remove
    rw [List.filter_filter]
    refine List.filter_congr (fun y _ => ?_)
    simp [Bool.and_comm]

theorem Remote.addUsers_users (s : Remote) (g : String) (us : List String) (k : String) :
    (s.addUsers g us).users k =
      if k = g then us.foldl Remote.insert (s.users g) else s.users k := by
  induction us generalizing s with
  | nil =>
    by_cases h : k = g
    · rw [if_pos h, h]; rfl
    · rw [if_neg h]; rfl
  | cons u rest ih =>
    show ((s.addUser g u).addUsers g rest).users k = _
    rw [ih]
    by_cases h : k = g
    · rw [if_pos h, if_pos h]
      show List.foldl Remote.insert (Function.update s.users g _ g) rest = _
      rw [Function.update_same]
      rfl
    · rw [if_neg h, if_neg h]
      show Function.update s.users g _ k = _
      rw [Function.update_noteq h]

theorem Remote.addUsers_groups (s : Remote) (g : String) (us : List String) :
    (s.addUsers g us).groups = s.groups := by
  induction us generalizing s with
  | nil => rfl
  | cons u rest ih =>
    show ((s.addUser g u).addUsers g rest).groups = _
    rw [ih]
    rfl

theorem Remote.addUsers_existing (s : Remote) (g : String) (us : List String) :
    (s.addUsers g us).existing = s.existing := by
  induction us generalizing s with
  | nil => rfl
  | cons u rest ih =>
    show ((s.addUser g u).addUsers g rest).existing = _
    rw [ih]
    rfl

theorem Remote.addGroups_groups (s : Remote) (g : String) (xs : List String) (k : String) :
    (s.addGroups g xs).groups k =
      if k = g then xs.foldl Remote.insert (s.groups g) else s.groups k := by
  induction xs generalizing s with
  | nil =>
    by_cases h : k = g
    · rw [if_pos h, h]; rfl
    · rw [if_neg h]; rfl
  | cons u rest ih =>
    show ((s.addGroup g u).addGroups g rest).groups k = _
    rw [ih]
    by_cases h : k = g
    · rw [if_pos h, if_pos h]
      show List.foldl Remote.insert (Function.update s.groups g _ g) rest = _
      rw [Function.update_same]
      rfl
    · rw [if_neg h, if_neg h]
      show Function.update s.groups g _ k = _
      rw [Function.update_noteq h]

theorem Remote.addGroups_users (s : Remote) (g : String) (xs : List String) :
    (s.addGroups g xs).users = s.users := by
  induction xs generalizing s with
  | nil => rfl
  | cons u rest ih =>
    show ((s.addGroup g u).addGroups g rest).users = _
    rw [ih]
    rfl

theorem Remote.addGroups_existing (s : Remote) (g : String) (xs : List String) :
    (s.addGroups g xs).existing = s.existing := by
  induction xs generalizing s with
  | nil => rfl
  | cons u rest ih =>
    show ((s.addGroup g u).addGroups g rest).existing = _
    rw [ih]
    rfl

theorem Remote.deleteUsers_users (s : Remote) (g : String) (rs : List String) (k : String) :
    (s.deleteUsers g rs).users k =
      if k = g then (s.users g).filter (fun y => decide (y ∉ rs)) else s.users k := by
  rw [← Remote.foldl_remove]
  induction rs generalizing s with
  | nil =>
    by_cases h : k = g
    · rw [if_pos h, h]; rfl
    · rw [if_neg h]; rfl
  | cons u rest ih =>
    show ((s.deleteUser g u).deleteUsers g rest).users k = _
    rw [ih]
    by_cases h : k = g
    · rw [if_pos h, if_pos h]
      show List.foldl Remote.remove (Function.update s.users g _ g) rest = _
      rw [Function.update_same]
      rfl
    · rw [if_neg h, if_neg h]
      show Function.update s.users g _ k = _
      rw [Function.update_noteq h]

theorem Remote.deleteUsers_groups (s : Remote) (g : String) (rs : List String) :
    (s.deleteUsers g rs).groups = s.groups := by
  induction rs generalizing s with
  | nil => rfl
  | cons u rest ih =>
    show ((s.deleteUser g u).deleteUsers g rest).groups = _
    rw [ih]
    rfl

theorem Remote.deleteUsers_existing (s : Remote) (g : String) (rs : List String) :
    (s.deleteUsers g rs).existing = s.existing := by
  induction rs generalizing s with
  | nil => rfl
  | cons u rest ih =>
    show ((s.deleteUser g u).deleteUsers g rest).existing = _
    rw [ih]
    rfl

theorem Remote.deleteGroups_groups (s : Remote) (g : String) (rs : List String) (k : String) :
    (s.deleteGroups g rs).groups k =
      if k = g then (s.groups g).filter (fun y => decide (y ∉ rs)) else s.groups k := by
  rw [← Remote.foldl_remove]
  induction rs generalizing s with
  | nil =>
    by_cases h : k = g
    · rw [if_pos h, h]; rfl
    · rw [if_neg h]; rfl
  | cons u rest ih =>
    show ((s.deleteGroup g u).deleteGroups g rest).groups k = _
    rw [ih]
    by_cases h : k = g
    · rw [if_pos h, if_pos h]
      show List.foldl Remote.remove (Function.update s.groups g _ g) rest = _
      rw [Function.update_same]
      rfl
    · rw [if_neg h, if_neg h]
      show Function.update s.groups g _ k = _
      rw [Function.update_noteq h]

theorem Remote.deleteGroups_users (s : Remote) (g : String) (rs : List String) :
    (s.deleteGroups g rs).users = s.users := by
  induction rs generalizing s with
  | nil => rfl
  | cons u rest ih =>
    show ((s.deleteGroup g u).deleteGroups g rest).users = _
    rw [ih]
    rfl

theorem Remote.deleteGroups_existing (s : Remote) (g : String) (rs : List String) :
    (s.deleteGroups g rs).existing = s.existing := by
  induction rs generalizing s with
  | nil => rfl
  | cons u rest ih =>
    show ((s.deleteGroup g u).deleteGroups g rest).existing = _
    rw [ih]
    rfl

theorem filter_not_mem_self (l : List String) : l.filter (fun y => decide (y ∉ l)) = [] := by
  rw [List.filter_eq_nil_iff]
  intro y hy
  simpa using hy

theorem filter_not_mem_unprotected (l P : List String) :
    l.filter (fun y => decide (y ∉ l.filter (fun u => decide (u ∉ P)))) =
      l.filter (fun y => decide (y ∈ P)) := by
  refine List.filter_congr (fun y hy => ?_)
  simp [hy]

theorem resourceGroupMembershipRead_setService (d : ResourceData) (s : Remote) :
    resourceGroupMembershipRead setService d s = ⟨Res.ok (readResult d s), s, readTrace d s⟩ :=
  resourceGroupMembershipRead_run d s

theorem setService_User (u : String) (s : Remote) :
    setService.User u s =
      (if u ∈ s.existing then Except.ok ⟨some u⟩ else Except.error "Not found", s) := rfl

theorem checkUsersExist_run_ok (us : List String) (s : Remote) (h : ∀ u, u ∈ us → u ∈ s.existing) :
    checkUsersExist setService us s =
      ⟨Res.ok (), s, us.map (fun u => ⟨Call.User u, Reply.user ⟨some u⟩⟩)⟩ := by
  induction us with
  | nil => rfl
  | cons u rest ih =>
    have hu : u ∈ s.existing := h u (List.mem_cons_self _ _)
    have hrun : Op.mapError (wrapFetchError u) (client.User setService u) s =
        ⟨Res.ok ⟨some u⟩, s, [⟨Call.User u, Reply.user ⟨some u⟩⟩]⟩ := by
      rw [lookup_run, setService_User, if_pos hu]
    rw [checkUsersExist, bind_def, Op.bind_run hrun,
      ih (fun v hv => h v (List.mem_cons_of_mem _ hv))]
    rfl

theorem checkUsersExist_state (us : List String) (s : Remote) :
    (checkUsersExist setService us s).state = s := by
  induction us with
  | nil => rfl
  | cons u rest ih =>
    rw [checkUsersExist, bind_def]
    have hrun := lookup_run setService u s
    by_cases hu : u ∈ s.existing
    · have hrun2 : Op.mapError (wrapFetchError u) (client.User setService u) s =
          ⟨Res.ok ⟨some u⟩, s, [⟨Call.User u, Reply.user ⟨some u⟩⟩]⟩ := by
        rw [hrun, setService_User, if_pos hu]
      rw [Op.bind_run hrun2]
      exact ih
    · have hrun2 : Op.mapError (wrapFetchError u) (client.User setService u) s =
          ⟨Res.error (wrapFetchError u "Not found"), s,
            [⟨Call.User u, Reply.failed "Not found"⟩]⟩ := by
        rw [hrun, setService_User, if_neg hu]
      rw [Op.bind_error (by rw [hrun2])]
      show (Op.mapError (wrapFetchError u) (client.User setService u) s).state = s
      rw [hrun2]

theorem resourceGroupMembershipUpdate_run (d : ResourceData) (s : Remote)
    (h : ∀ u, u ∈ d.user_ids → u ∈ s.existing) :
    resourceGroupMembershipUpdate setService d s =
      ⟨Res.ok (readResult d (updateState d s)), updateState d s, updateTrace d s⟩ := by
  rw [resourceGroupMembershipUpdate_eq, Op.bind_run (checkUsersExist_run_ok _ _ h),
    Op.bind_run (removeAllUsersFromGroup_run _ _ _), Op.bind_run (getGroupIDs_setService _ _)]
  simp only [Remote.deleteUsers_groups]
  by_cases hc : differentStringSlices (s.groups d.Id) d.group_ids = true
  · rw [if_pos hc, Op.bind_run (removeAllGroupsFromGroup_run _ _),
      Op.bind_run (addGroupUsers_run _ _ _), Op.bind_run (addGroupGroups_run _ _ _),
      resourceGroupMembershipRead_setService]
    simp only [updateState, updateTrace, if_pos hc, Remote.deleteUsers_groups, unprotected,
      List.append_assoc, List.cons_append, List.nil_append]
  · rw [if_neg hc, Op.bind_run (addGroupUsers_run _ _ _), resourceGroupMembershipRead_setService]
    simp only [updateState, updateTrace, if_neg hc, Remote.deleteUsers_groups, unprotected,
      List.append_assoc, List.cons_append, List.nil_append, List.append_nil]

theorem resourceGroupMembershipDelete_run (d : ResourceData) (s : Remote) :
    ∃ t, resourceGroupMembershipDelete setService d s =
      ⟨Res.ok (readResult d (deleteState d s)), deleteState d s, t⟩ := by
  rw [resourceGroupMembershipDelete_eq, Op.bind_run (removeAllUsersFromGroup_run _ _ _),
    Op.bind_run (removeAllGroupsFromGroup_run _ _), resourceGroupMembershipRead_setService]
  simp only [Remote.deleteUsers_groups]
  exact ⟨_, rfl⟩

theorem resourceGroupMembershipCreate_run (d : ResourceData) (s : Remote) :
    ∃ t, resourceGroupMembershipCreate setService d s =
      ⟨Res.ok (readResult { d with Id := d.target_group_id } (createState d s)),
        createState d s, t⟩ := by
  rw [resourceGroupMembershipCreate_eq, Op.bind_run (addGroupUsers_run _ _ _),
    Op.bind_run (addGroupGroups_run _ _ _), resourceGroupMembershipRead_setService]
  exact ⟨_, rfl⟩

theorem checkUsersExist_run_fail (us : List String) (s : Remote) (h : ¬ us ⊆ s.existing) :
    ∃ e t, checkUsersExist setService us s = ⟨Res.error e, s, t⟩ := by
  induction us with
  | nil => exact absurd (List.nil_subset _) h
  | cons u rest ih =>
    rw [checkUsersExist, bind_def]
    by_cases hu : u ∈ s.existing
    · have hrun : Op.mapError (wrapFetchError u) (client.User setService u) s =
          ⟨Res.ok ⟨some u⟩, s, [⟨Call.User u, Reply.user ⟨some u⟩⟩]⟩ := by
        rw [lookup_run, setService_User, if_pos hu]
      have hrest : ¬ rest ⊆ s.existing := fun hsub =>
        h (List.cons_subset.2 ⟨hu, hsub⟩)
      obtain ⟨e, t, ht⟩ := ih hrest
      rw [Op.bind_run hrun, ht]
      exact ⟨e, _, rfl⟩
    · have hrun : Op.mapError (wrapFetchError u) (client.User setService u) s =
          ⟨Res.error (wrapFetchError u "Not found"), s,
            [⟨Call.User u, Reply.failed "Not found"⟩]⟩ := by
        rw [lookup_run, setService_User, if_neg hu]
      rw [Op.bind_error (by rw [hrun]), hrun]
      exact ⟨_, _, rfl⟩

theorem resourceGroupMembershipUpdate_run_fail (d : ResourceData) (s : Remote)
    (h : ¬ d.user_ids ⊆ s.existing) :
    ∃ e t, resourceGroupMembershipUpdate setService d s = ⟨Res.error e, s, t⟩ := by
  obtain ⟨e, t, ht⟩ := checkUsersExist_run_fail d.user_ids s h
  rw [resourceGroupMembershipUpdate_eq, Op.bind_error (by rw [ht]), ht]
  exact ⟨e, t, rfl⟩

theorem updateState_users (d : ResourceData) (s : Remote) (k : String) :
    (updateState d s).users k =
      if k = d.Id then
        d.user_ids.foldl Remote.insert
          ((s.users d.Id).filter (fun y => decide (y ∈ d.delete_protected_user_ids)))
      else s.users k := by
  unfold updateState
  by_cases hc : differentStringSlices (s.groups d.Id) d.group_ids = true
  · rw [if_pos hc, Remote.addGroups_users, Remote.addUsers_users, Remote.deleteGroups_users,
      Remote.deleteUsers_users, if_pos rfl, unprotected, filter_not_mem_unprotected]
    by_cases hk : k = d.Id
    · rw [if_pos hk, if_pos hk]
    · rw [if_neg hk, if_neg hk, Remote.deleteUsers_users, if_neg hk]
  · rw [if_neg hc, Remote.addUsers_users, Remote.deleteUsers_users, if_pos rfl, unprotected,
      filter_not_mem_unprotected]
    by_cases hk : k = d.Id
    · rw [if_pos hk, if_pos hk]
    · rw [if_neg hk, if_neg hk, Remote.deleteUsers_users, if_neg hk]

theorem updateState_groups (d : ResourceData) (s : Remote) (k : String) :
    (updateState d s).groups k =
      if k = d.Id then
        (if differentStringSlices (s.groups d.Id) d.group_ids = true then
          d.group_ids.foldl Remote.insert [] else s.groups d.Id)
      else s.groups k := by
  unfold updateState
  by_cases hc : differentStringSlices (s.groups d.Id) d.group_ids = true
  · rw [if_pos hc, if_pos hc, Remote.addGroups_groups, Remote.addUsers_groups,
      Remote.deleteGroups_groups, if_pos rfl, Remote.deleteUsers_groups, filter_not_mem_self]
    by_cases hk : k = d.Id
    · rw [if_pos hk, if_pos hk]
    · rw [if_neg hk, if_neg hk, Remote.deleteGroups_groups, if_neg hk, Remote.deleteUsers_groups]
  · rw [if_neg hc, if_neg hc, Remote.addUsers_groups, Remote.deleteUsers_groups]
    by_cases hk : k = d.Id
    · rw [if_pos hk, hk]
    · rw [if_neg hk]

theorem updateState_existing (d : ResourceData) (s : Remote) :
    (updateState d s).existing = s.existing := by
  unfold updateState
  by_cases hc : differentStringSlices (s.groups d.Id) d.group_ids = true
  · rw [if_pos hc, Remote.addGroups_existing, Remote.addUsers_existing,
      Remote.deleteGroups_existing, Remote.deleteUsers_existing]
  · rw [if_neg hc, Remote.addUsers_existing, Remote.deleteUsers_existing]

theorem mem_schemaSetOf (l : List String) (x : String) : x ∈ schemaSetOf l ↔ x ∈ l :=
  List.mem_dedup

/-! ## The claims -/

/-- C1. Whatever the client answers, `removeAllUsersFromGroup`, and so Update and
Delete which call it with `delete_protected_user_ids`, never issue a
`DeleteGroupUser` call for a user id of the protected list. -/
theorem protected_users_never_removed (m : LookerSDK σ) (groupID : String)
    (protectedUserIDs : List String) (d : ResourceData) (s : σ) :
    (∀ ev, ev ∈ (removeAllUsersFromGroup m groupID protectedUserIDs s).trace →
      ∀ g u, ev.call = Call.DeleteGroupUser g u → u ∉ protectedUserIDs) ∧
    (∀ ev, ev ∈ (resourceGroupMembershipUpdate m d s).trace →
      ∀ g u, ev.call = Call.DeleteGroupUser g u → u ∉ d.delete_protected_user_ids) ∧
    (∀ ev, ev ∈ (resourceGroupMembershipDelete m d s).trace →
      ∀ g u, ev.call = Call.DeleteGroupUser g u → u ∉ d.delete_protected_user_ids) := by
  refine ⟨fun ev hev g u hc => ?_, fun ev hev g u hc => ?_, fun ev hev g u hc => ?_⟩
  · rcases removeAllUsersFromGroup_issues m groupID protectedUserIDs s ev hev with h | ⟨v, hv, h⟩
    · rw [hc] at h
      exact Call.noConfusion h
    · rw [hc] at h
      injection h with _ h2
      rw [h2]
      exact hv
  · have h := resourceGroupMembershipUpdate_issues m d s ev hev
    simp only [UpdateCall, hc] at h
    simp at h
    exact h.1
  · have h := resourceGroupMembershipDelete_issues m d s ev hev
    simp only [DeleteCall, hc] at h
    simp at h
    exact h.1

/-- C2, as amended. When some desired user id has a failing lookup, Update
returns an error and issues no mutation call, and so does the `validate` hook
that runs on the plan of a create as well as of an update; Create itself
looks up no user. -/
theorem validation_failure_aborts_before_mutation (m : LookerSDK σ) (d : ResourceData) (s : σ)
    (u : String) (hu : u ∈ d.user_ids)
    (hfail : ∀ s1, ∃ e, (m.User u s1).1 = Except.error e) :
    ((∃ e, (resourceGroupMembershipUpdate m d s).res = Res.error e) ∧
      (resourceGroupMembershipUpdate m d s).trace.filter (fun ev => ev.call.isMutation) = []) ∧
    ((∃ e, (validate m d s).res = Res.error e) ∧
      (validate m d s).trace.filter (fun ev => ev.call.isMutation) = []) ∧
    (resourceGroupMembershipCreate m d s).trace.filter (fun ev => ev.call.isLookup) = [] := by
  refine (and_assoc.1 ⟨?_, ?_⟩)
  swap
  · rw [List.filter_eq_nil_iff]
    intro ev hev
    have h := resourceGroupMembershipCreate_issues m d s ev hev
    rcases h with ⟨v, _, h⟩ | ⟨v, _, h⟩ | h | h <;> rw [h] <;> exact Bool.false_ne_true
  obtain ⟨e, he⟩ := checkUsersExist_fails m d.user_ids u hu hfail s
  have hnone : (checkUsersExist m d.user_ids s).trace.filter (fun ev => ev.call.isMutation) = [] := by
    rw [List.filter_eq_nil_iff]
    intro ev hev
    obtain ⟨v, _, hv⟩ := checkUsersExist_issues m d.user_ids s ev hev
    rw [hv]
    exact Bool.false_ne_true
  refine ⟨?_, ⟨e, he⟩, hnone⟩
  rw [resourceGroupMembershipUpdate_eq, Op.bind_error he]
  exact ⟨⟨e, rfl⟩, hnone⟩

/-- C9. Create, Update and Delete, on any client: an error is returned exactly
when an issued call failed; the failed call is the last one issued, every call
before it succeeded, its error is the one returned, and the client is left in
the state produced by the issued calls, none undone. -/
theorem first_failing_call_aborts (m : LookerSDK σ) (d : ResourceData) (s : σ) :
    FirstFailurePolicy m s (resourceGroupMembershipCreate m d s) ∧
    FirstFailurePolicy m s (resourceGroupMembershipUpdate m d s) ∧
    FirstFailurePolicy m s (resourceGroupMembershipDelete m d s) :=
  ⟨(resourceGroupMembershipCreate_sound m d).policy s,
    (resourceGroupMembershipUpdate_sound m d).policy s,
    (resourceGroupMembershipDelete_sound m d).policy s⟩

/-- C3. When the first group listing Update takes (the one of `getGroupIDs`)
returns group ids that, as a set, are the desired `group_ids`, Update issues no
`AddGroupGroup` and no `DeleteGroupFromGroup` call, whatever the order of the
two lists. -/
theorem update_group_short_circuit (m : LookerSDK σ) (d : ResourceData) (s : σ)
    (groups : List apiclient.Group) (ids : List String)
    (hfirst : (resourceGroupMembershipUpdate m d s).trace.find?
        (fun ev => ev.call.isGroupListing) =
      some ⟨Call.AllGroupGroups d.Id, Reply.groups groups⟩)
    (hids : flattenGroupIDs groups = some ids)
    (hset : ∀ x, x ∈ ids ↔ x ∈ d.group_ids) :
    (resourceGroupMembershipUpdate m d s).trace.filter
      (fun ev => ev.call.isGroupMutation) = [] := by
  rw [List.filter_eq_nil_iff]
  have key : ∀ ev, ev ∈ (resourceGroupMembershipUpdate m d s).trace →
      ev.call.isGroupMutation = false := by
    rw [resourceGroupMembershipUpdate_eq] at hfirst ⊢
    have hA : ∀ ev, ev ∈ (checkUsersExist m d.user_ids s).trace →
        ev.call.isGroupListing = false ∧ ev.call.isGroupMutation = false := by
      intro ev hev
      obtain ⟨v, _, hv⟩ := checkUsersExist_issues m d.user_ids s ev hev
      rw [hv]
      exact ⟨rfl, rfl⟩
    refine bind_trace_forall (fun ev hev => (hA ev hev).2) (fun _ hrA => ?_)
    rw [bind_trace_find (fun ev hev => (hA ev hev).1) hrA] at hfirst
    generalize (checkUsersExist m d.user_ids s).state = sA at hfirst ⊢
    have hB : ∀ ev, ev ∈ (removeAllUsersFromGroup m d.Id d.delete_protected_user_ids sA).trace →
        ev.call.isGroupListing = false ∧ ev.call.isGroupMutation = false := by
      intro ev hev
      rcases removeAllUsersFromGroup_issues m d.Id _ sA ev hev with h | ⟨v, _, h⟩ <;>
        rw [h] <;> exact ⟨rfl, rfl⟩
    refine bind_trace_forall (fun ev hev => (hB ev hev).2) (fun _ hrB => ?_)
    rw [bind_trace_find (fun ev hev => (hB ev hev).1) hrB] at hfirst
    generalize (removeAllUsersFromGroup m d.Id d.delete_protected_user_ids sA).state = sB
      at hfirst ⊢
    have hG := getGroupIDs_run m d.Id sB
    rcases hm : m.AllGroupGroups d.Id sB with ⟨r, sC⟩
    rw [hm] at hG
    cases r with
    | error e =>
      simp only at hG
      rw [Op.bind_error (by rw [hG])] at hfirst
      rw [hG] at hfirst
      simp [Call.isGroupListing] at hfirst
    | ok l =>
      simp only at hG
      have hl : l = groups := by
        rcases hf : flattenGroupIDs l with _ | ids1
        · rw [hf] at hG
          rw [Op.bind_panic (by rw [hG])] at hfirst
          rw [hG] at hfirst
          simpa [Call.isGroupListing] using hfirst
        · rw [hf] at hG
          rw [Op.bind_run hG] at hfirst
          simpa [Call.isGroupListing] using hfirst
      subst hl
      rw [hids] at hG
      rw [Op.bind_run hG, if_neg (by rw [differentStringSlices_eq_false hset]; exact Bool.false_ne_true)]
      intro ev hev
      rcases List.mem_append.1 hev with hev | hev
      · simp at hev
        rw [hev]
        rfl
      · have hrest : Issues (fun ev => ev.call.isGroupMutation = false)
            ((addGroupUsers m d.Id d.user_ids).bind fun _ => resourceGroupMembershipRead m d) :=
          Issues.bind_issues ((addGroupUsers_issues m d.Id d.user_ids).mono
              (fun ev ⟨v, _, h⟩ => by rw [h]; rfl))
            (fun _ => (resourceGroupMembershipRead_issues m d).mono
              (fun ev h => by rcases h with h | h <;> rw [h] <;> rfl))
        exact hrest sC ev hev
  intro ev hev
  rw [key ev hev]
  exact Bool.false_ne_true

theorem userMutations_updateTrace (d : ResourceData) (s : Remote) :
    ((updateTrace d s).map Event.call).filter Call.isUserMutation =
      (unprotected d s).map (Call.DeleteGroupUser d.Id) ++
        d.user_ids.map (Call.AddGroupUser d.Id) := by
  have h1 : ∀ l : List String, ((l.map (fun u => (⟨Call.User u, Reply.user ⟨some u⟩⟩ : Event))).map
      Event.call).filter Call.isUserMutation = [] := by
    intro l
    induction l with
    | nil => rfl
    | cons a l ih => simp [Call.isUserMutation]
  have h2 : ∀ l : List String, ((l.map (fun u => (⟨Call.DeleteGroupUser d.Id u, Reply.done⟩ : Event))).map
      Event.call).filter Call.isUserMutation = l.map (Call.DeleteGroupUser d.Id) := by
    intro l
    induction l with
    | nil => rfl
    | cons a l ih => simpa [Call.isUserMutation] using ih
  have h3 : ∀ l : List String, ((l.map (fun u => (⟨Call.AddGroupUser d.Id u, Reply.done⟩ : Event))).map
      Event.call).filter Call.isUserMutation = l.map (Call.AddGroupUser d.Id) := by
    intro l
    induction l with
    | nil => rfl
    | cons a l ih => simpa [Call.isUserMutation] using ih
  have h4 : ∀ l : List String, ((l.map (fun u => (⟨Call.DeleteGroupFromGroup d.Id u, Reply.done⟩ : Event))).map
      Event.call).filter Call.isUserMutation = [] := by
    intro l
    induction l with
    | nil => rfl
    | cons a l ih => simp [Call.isUserMutation]
  have h5 : ∀ l : List String, ((l.map (fun u => (⟨Call.AddGroupGroup d.Id u, Reply.done⟩ : Event))).map
      Event.call).filter Call.isUserMutation = [] := by
    intro l
    induction l with
    | nil => rfl
    | cons a l ih => simp [Call.isUserMutation]
  unfold updateTrace readTrace
  by_cases hc : differentStringSlices (s.groups d.Id) d.group_ids = true
  · simp only [if_pos hc, List.map_append, List.filter_append, h1, h3, h5, List.map_cons,
      List.filter_cons, Call.isUserMutation, h2, h4]
    simp
  · simp only [if_neg hc, List.map_append, List.filter_append, h1, h3, h5, List.map_cons,
      List.filter_cons, Call.isUserMutation, h2, h4]
    simp

/-- C4. On the set service, with every desired user existing, Update succeeds,
its user mutations are the removals of the listed users outside the protected
list followed by the additions of every desired user, and afterwards the users
of the group are the desired ones together with the protected former members;
this is also the `user_ids` the trailing Read reports when `target_group_id` is
the stored id. -/
theorem update_sweeps_then_adds (d : ResourceData) (s : Remote)
    (hD : d.user_ids ⊆ s.existing) :
    (∃ d1, (resourceGroupMembershipUpdate setService d s).res = Res.ok d1) ∧
    ((resourceGroupMembershipUpdate setService d s).trace.map Event.call).filter
        Call.isUserMutation =
      ((s.users d.Id).filter (fun u => decide (u ∉ d.delete_protected_user_ids))).map
          (Call.DeleteGroupUser d.Id) ++
        d.user_ids.map (Call.AddGroupUser d.Id) ∧
    (∀ u, u ∈ (resourceGroupMembershipUpdate setService d s).state.users d.Id ↔
      u ∈ d.user_ids ∨ (u ∈ s.users d.Id ∧ u ∈ d.delete_protected_user_ids)) ∧
    (d.target_group_id = d.Id →
      ∀ d1, (resourceGroupMembershipUpdate setService d s).res = Res.ok d1 →
        ∀ u, u ∈ d1.user_ids ↔
          u ∈ d.user_ids ∨ (u ∈ s.users d.Id ∧ u ∈ d.delete_protected_user_ids)) := by
  rw [resourceGroupMembershipUpdate_run d s (fun u hu => hD hu)]
  have hmem : ∀ u, u ∈ (updateState d s).users d.Id ↔
      u ∈ d.user_ids ∨ (u ∈ s.users d.Id ∧ u ∈ d.delete_protected_user_ids) := by
    intro u
    rw [updateState_users, if_pos rfl, Remote.mem_foldl_insert, List.mem_filter]
    simp only [decide_eq_true_eq]
    exact or_comm
  refine ⟨⟨_, rfl⟩, userMutations_updateTrace d s, hmem, fun htg d1 h1 u => ?_⟩
  injection h1 with h1
  subst h1
  show u ∈ schemaSetOf ((updateState d s).users d.target_group_id) ↔ _
  rw [mem_schemaSetOf, htg]
  exact hmem u

/-- C5. On the set service, running Update a second time with the same desired
state leaves, for every group, the same users and the same member groups as
running it once; and when both runs succeed they report the same `user_ids`
and `group_ids`, as sets. -/
theorem update_idempotent (d : ResourceData) (s : Remote) :
    (∀ k,
      (∀ u, u ∈ (resourceGroupMembershipUpdate setService d
            (resourceGroupMembershipUpdate setService d s).state).state.users k ↔
          u ∈ (resourceGroupMembershipUpdate setService d s).state.users k) ∧
      (∀ x, x ∈ (resourceGroupMembershipUpdate setService d
            (resourceGroupMembershipUpdate setService d s).state).state.groups k ↔
          x ∈ (resourceGroupMembershipUpdate setService d s).state.groups k)) ∧
    (∀ d1 d2, (resourceGroupMembershipUpdate setService d s).res = Res.ok d1 →
      (resourceGroupMembershipUpdate setService d
        (resourceGroupMembershipUpdate setService d s).state).res = Res.ok d2 →
      (∀ u, u ∈ d2.user_ids ↔ u ∈ d1.user_ids) ∧ (∀ x, x ∈ d2.group_ids ↔ x ∈ d1.group_ids)) := by
  by_cases hD : d.user_ids ⊆ s.existing
  · have hD1 : d.user_ids ⊆ (updateState d s).existing := by
      rw [updateState_existing]
      exact hD
    rw [resourceGroupMembershipUpdate_run d s (fun u hu => hD hu)]
    simp only
    rw [resourceGroupMembershipUpdate_run d _ (fun u hu => hD1 hu)]
    simp only
    have hU : ∀ k u, u ∈ (updateState d (updateState d s)).users k ↔
        u ∈ (updateState d s).users k := by
      intro k u
      rw [updateState_users d (updateState d s) k, updateState_users d s k,
        updateState_users d s d.Id, if_pos rfl]
      by_cases hk : k = d.Id
      · simp only [if_pos hk, Remote.mem_foldl_insert, List.mem_filter, decide_eq_true_eq]
        tauto
      · simp only [if_neg hk]
    have hGr : ∀ k, (updateState d (updateState d s)).groups k = (updateState d s).groups k := by
      intro k
      rw [updateState_groups d (updateState d s) k, updateState_groups d s k,
        updateState_groups d s d.Id, if_pos rfl]
      by_cases hk : k = d.Id
      · simp only [if_pos hk]
        by_cases hc : differentStringSlices (s.groups d.Id) d.group_ids = true
        · simp only [if_pos hc]
          split <;> rfl
        · simp only [if_neg hc]
      · simp only [if_neg hk]
    refine ⟨fun k => ⟨hU k, fun x => by rw [hGr k]⟩, ?_⟩
    intro d1 d2 h1 h2
    injection h1 with h1
    injection h2 with h2
    subst h1 h2
    refine ⟨fun u => ?_, fun x => ?_⟩
    · show u ∈ schemaSetOf _ ↔ u ∈ schemaSetOf _
      rw [mem_schemaSetOf, mem_schemaSetOf]
      exact hU _ u
    · show x ∈ schemaSetOf _ ↔ x ∈ schemaSetOf _
      rw [mem_schemaSetOf, mem_schemaSetOf, hGr]
  · obtain ⟨e, t, ht⟩ := resourceGroupMembershipUpdate_run_fail d s hD
    rw [ht]
    simp only
    rw [ht]
    exact ⟨fun k => ⟨fun u => Iff.rfl, fun x => Iff.rfl⟩, fun d1 d2 h1 => Res.noConfusion h1⟩

/-- C6. On the set service Delete succeeds and leaves in the group exactly the
former user members that are protected, and no member group. -/
theorem delete_leaves_only_protected (d : ResourceData) (s : Remote) :
    (∃ d1, (resourceGroupMembershipDelete setService d s).res = Res.ok d1) ∧
    (∀ u, u ∈ (resourceGroupMembershipDelete setService d s).state.users d.Id ↔
      (u ∈ s.users d.Id ∧ u ∈ d.delete_protected_user_ids)) ∧
    (resourceGroupMembershipDelete setService d s).state.groups d.Id = [] := by
  obtain ⟨t, ht⟩ := resourceGroupMembershipDelete_run d s
  rw [ht]
  refine ⟨⟨_, rfl⟩, fun u => ?_, ?_⟩
  · show u ∈ (deleteState d s).users d.Id ↔ _
    rw [deleteState, Remote.deleteGroups_users, Remote.deleteUsers_users, if_pos rfl,
      unprotected, filter_not_mem_unprotected, List.mem_filter]
    simp only [decide_eq_true_eq]
  · show (deleteState d s).groups d.Id = []
    rw [deleteState, Remote.deleteGroups_groups, if_pos rfl, Remote.deleteUsers_groups,
      filter_not_mem_self]

/-- C7. On the set service, when the target group has no member beforehand,
Create succeeds, a Read after it succeeds, and the `user_ids` and `group_ids`
that Read reports are, as sets, the supplied ones. -/
theorem create_then_read_round_trip (d : ResourceData) (s : Remote)
    (hU : s.users d.target_group_id = []) (hG : s.groups d.target_group_id = []) :
    ∃ d1 d2, (resourceGroupMembershipCreate setService d s).res = Res.ok d1 ∧
      (resourceGroupMembershipRead setService d1
        (resourceGroupMembershipCreate setService d s).state).res = Res.ok d2 ∧
      (∀ u, u ∈ d2.user_ids ↔ u ∈ d.user_ids) ∧
      (∀ x, x ∈ d2.group_ids ↔ x ∈ d.group_ids) := by
  obtain ⟨t, ht⟩ := resourceGroupMembershipCreate_run d s
  rw [ht]
  refine ⟨_, _, rfl, by rw [resourceGroupMembershipRead_setService], fun u => ?_, fun x => ?_⟩
  · show u ∈ schemaSetOf ((createState d s).users d.target_group_id) ↔ _
    rw [mem_schemaSetOf, createState, Remote.addGroups_users, Remote.addUsers_users, if_pos rfl,
      Remote.mem_foldl_insert, hU]
    simp
  · show x ∈ schemaSetOf ((createState d s).groups d.target_group_id) ↔ _
    rw [mem_schemaSetOf, createState, Remote.addGroups_groups, if_pos rfl,
      Remote.mem_foldl_insert, Remote.addUsers_groups, hG]
    simp

/-- C4, the scenario of the spec. Desired `u1`, `u2`, actual `u1`, `u3`, protected
`u3`: Update removes `u1` and not `u3`, then adds `u1` and `u2`, and the group
ends with `u3`, `u1`, `u2`. -/
theorem update_scenario :
    scenarioData.user_ids ⊆ scenarioRemote.existing ∧
    ((resourceGroupMembershipUpdate setService scenarioData scenarioRemote).trace.map
        Event.call).filter Call.isUserMutation =
      [Call.DeleteGroupUser "g" "u1", Call.AddGroupUser "g" "u1", Call.AddGroupUser "g" "u2"] ∧
    (resourceGroupMembershipUpdate setService scenarioData scenarioRemote).state.users "g" =
      ["u3", "u1", "u2"] ∧
    (resourceGroupMembershipUpdate setService scenarioData scenarioRemote).res =
      Res.ok ⟨"g", "g", ["u3", "u1", "u2"], ["u3"], []⟩ ∧
    (∀ u, u ∈ (resourceGroupMembershipUpdate setService scenarioData scenarioRemote).state.users
        scenarioData.Id ↔
      u ∈ scenarioData.user_ids ∨
        (u ∈ scenarioRemote.users scenarioData.Id ∧ u ∈ scenarioData.delete_protected_user_ids)) :=
  ⟨by decide, (update_sweeps_then_adds scenarioData scenarioRemote (by decide)).2.1, by decide,
    by decide, (update_sweeps_then_adds scenarioData scenarioRemote (by decide)).2.2.1⟩

/-- C2 fails for Create. The lookup of `ghost` fails, yet Create returns no
error and its first call is the mutation `AddGroupUser g ghost`. -/
theorem create_adds_unchecked_user :
    (setService.User "ghost" emptyRemote).1 = Except.error "Not found" ∧
    (resourceGroupMembershipCreate setService ghostData emptyRemote).res =
      Res.ok ⟨"g", "g", ["ghost"], [], []⟩ ∧
    (resourceGroupMembershipCreate setService ghostData emptyRemote).trace.map Event.call =
      [Call.AddGroupUser "g" "ghost", Call.AllGroupUsers "g", Call.AllGroupGroups "g"] :=
  ⟨rfl, by decide, by decide⟩

/-- C2 as amended, on a client where every lookup fails. -/
theorem validation_failure_witness :
    "ghost" ∈ ghostData.user_ids ∧
    (∀ s1, ∃ e, (noUserService.User "ghost" s1).1 = Except.error e) ∧
    (((∃ e, (resourceGroupMembershipUpdate noUserService ghostData ()).res = Res.error e) ∧
      (resourceGroupMembershipUpdate noUserService ghostData ()).trace.filter
        (fun ev => ev.call.isMutation) = []) ∧
    ((∃ e, (validate noUserService ghostData ()).res = Res.error e) ∧
      (validate noUserService ghostData ()).trace.filter (fun ev => ev.call.isMutation) = []) ∧
    (resourceGroupMembershipCreate noUserService ghostData ()).trace.filter
      (fun ev => ev.call.isLookup) = []) :=
  ⟨by decide, fun _ => ⟨_, rfl⟩,
    validation_failure_aborts_before_mutation noUserService ghostData () "ghost" (by decide)
      (fun _ => ⟨_, rfl⟩)⟩

/-- C3 on the set service: listed `x`, `y`, desired `y`, `x`. -/
theorem update_group_short_circuit_witness :
    (resourceGroupMembershipUpdate setService reorderedData reorderedRemote).trace.find?
        (fun ev => ev.call.isGroupListing) =
      some ⟨Call.AllGroupGroups reorderedData.Id, Reply.groups [⟨some "x"⟩, ⟨some "y"⟩]⟩ ∧
    flattenGroupIDs [⟨some "x"⟩, ⟨some "y"⟩] = some ["x", "y"] ∧
    (∀ x, x ∈ ["x", "y"] ↔ x ∈ reorderedData.group_ids) ∧
    (resourceGroupMembershipUpdate setService reorderedData reorderedRemote).trace.filter
      (fun ev => ev.call.isGroupMutation) = [] :=
  ⟨by decide, rfl, fun x => by simp [reorderedData, or_comm],
    update_group_short_circuit setService reorderedData reorderedRemote
      [⟨some "x"⟩, ⟨some "y"⟩] ["x", "y"] (by decide) rfl
      (fun x => by simp [reorderedData, or_comm])⟩

/-- C7 on an empty service with two desired users and one desired group. -/
theorem create_then_read_witness :
    emptyRemote.users freshData.target_group_id = [] ∧
    emptyRemote.groups freshData.target_group_id = [] ∧
    ∃ d1 d2, (resourceGroupMembershipCreate setService freshData emptyRemote).res = Res.ok d1 ∧
      (resourceGroupMembershipRead setService d1
        (resourceGroupMembershipCreate setService freshData emptyRemote).state).res =
          Res.ok d2 ∧
      (∀ u, u ∈ d2.user_ids ↔ u ∈ freshData.user_ids) ∧
      (∀ x, x ∈ d2.group_ids ↔ x ∈ freshData.group_ids) :=
  ⟨rfl, rfl, create_then_read_round_trip freshData emptyRemote rfl rfl⟩

/-- C8, the code at the failing input. After an import of `g1` by id alone,
Read lists the group with the empty id, not `g1`: it reports an empty
`target_group_id` and no member, while `g1` holds `u1` and `x1`. -/
theorem read_after_import_ignores_id :
    (resourceGroupMembershipRead setService (importStatePassthrough "g1") twoGroupRemote).res =
      Res.ok ⟨"g1", "", [], [], []⟩ ∧
    (resourceGroupMembershipRead setService (importStatePassthrough "g1")
        twoGroupRemote).trace.map Event.call =
      [Call.AllGroupUsers "", Call.AllGroupGroups ""] ∧
    twoGroupRemote.users "g1" = ["u1"] ∧ twoGroupRemote.groups "g1" = ["x1"] :=
  ⟨by decide, by decide, rfl, rfl⟩

/-- C10, the code at the failing input. With stored id `g1` and configured
`target_group_id` `g2`, Update and Delete remove and add on `g1` while their
trailing Read lists `g2` and writes its (empty) membership. -/
theorem update_mutates_id_reads_target :
    (resourceGroupMembershipUpdate setService retargetedData twoGroupRemote).trace.map
        Event.call =
      [Call.User "u2", Call.AllGroupUsers "g1", Call.DeleteGroupUser "g1" "u1",
        Call.AllGroupGroups "g1", Call.AddGroupUser "g1" "u2",
        Call.AllGroupUsers "g2", Call.AllGroupGroups "g2"] ∧
    (resourceGroupMembershipUpdate setService retargetedData twoGroupRemote).res =
      Res.ok ⟨"g1", "g2", [], [], []⟩ ∧
    (resourceGroupMembershipUpdate setService retargetedData twoGroupRemote).state.users "g1" =
      ["u2"] ∧
    (resourceGroupMembershipDelete setService retargetedData twoGroupRemote).trace.map
        Event.call =
      [Call.AllGroupUsers "g1", Call.DeleteGroupUser "g1" "u1", Call.AllGroupGroups "g1",
        Call.DeleteGroupFromGroup "g1" "x1", Call.AllGroupUsers "g2", Call.AllGroupGroups "g2"] :=
  ⟨by decide, by decide, by decide, by decide⟩

end Looker
